import Mathlib

/-!
# obagent: plugin registry, mysqld exporter adapter, response envelope

A shallow embedding of

* `plugins/registry.go`  (the four plugin managers and their singleton accessors),
* `plugins/inputs/mysql/mysqld.go`  (the mysqld exporter adapter),
* `api/response/response.go`  (`BuildResponse`),

followed by the properties proved about them.

Conventions of the embedding.

* A Go `map[string]V` is a lookup function `String → Option V`.
* A Go call that can panic returns an `Outcome`; the state a panicking call leaves behind is
  returned next to it, so that "nothing was modified" is a statement and not a convention.
* A Go `error` is represented by its message; `nil` is `none`.
* A plugin factory `func() P` may have effects (it allocates, it may count its calls), so it is
  a state transformer on an abstract world `W`.
-/

/-! ## Go runtime vocabulary -/

/-- A Go `map[string]V`, seen through lookup: `none` means the key has no entry. -/
abbrev GoMap (V : Type) := String → Option V

/-- The map produced by `make(map[string]V)`. -/
def GoMap.empty {V : Type} : GoMap V := fun _ => none

/-- The assignment `m[k] = v`. -/
def GoMap.insert {V : Type} (m : GoMap V) (k : String) (v : V) : GoMap V :=
  fun k' => if k' = k then some v else m k'

/-- How a Go call ends: it returns a value, or it panics with a message. -/
inductive Outcome (α : Type) where
  | ret (a : α)
  | panic (msg : String)
  deriving DecidableEq, Repr

/-- A zero-argument constructor `func() P` with effects on the world `W`. -/
abbrev Factory (W P : Type) := W → P × W

/-- The text `sub` occurs in the text `s`. -/
def occursIn (sub s : String) : Prop := sub.data <:+: s.data

instance (sub s : String) : Decidable (occursIn sub s) := by
  unfold occursIn; infer_instance

/-! ## plugins/registry.go -/

namespace plugins

variable {W Input Processor Output Exporter : Type}

/-- InputManager responsible for managing and creating input plugin instances. -/
structure InputManager (W Input : Type) where
  Registry : GoMap (Factory W Input)

/-- ProcessorManager responsible for managing and creating processor plugin instances. -/
structure ProcessorManager (W Processor : Type) where
  Registry : GoMap (Factory W Processor)

/-- OutputManager responsible for managing and creating output plugin instances. -/
structure OutputManager (W Output : Type) where
  Registry : GoMap (Factory W Output)

/-- ExporterManager responsible for managing and creating exporter plugin instances. -/
structure ExporterManager (W Exporter : Type) where
  Registry : GoMap (Factory W Exporter)

/-- What `GetPlugin` hands back: the Go result pair `(plugin, err)`, together with the manager
and the world as the call leaves them. -/
structure Lookup (M W P : Type) where
  plugin : Option P
  err : Option String
  manager : M
  world : W

/-- Register add the input plugin with the manager. -/
def InputManager.Register (m : InputManager W Input) (name : String) (f : Factory W Input) :
    Outcome Unit × InputManager W Input :=
  let exist := (m.Registry name).isSome
  if exist then
    (.panic ("input plugin " ++ name ++ " already registered"), m)
  else
    (.ret (), { Registry := m.Registry.insert name f })

/-- Register add the processor plugin with the manager. -/
def ProcessorManager.Register (m : ProcessorManager W Processor) (name : String)
    (f : Factory W Processor) : Outcome Unit × ProcessorManager W Processor :=
  let exist := (m.Registry name).isSome
  if exist then
    (.panic ("processor plugin " ++ name ++ " already registered"), m)
  else
    (.ret (), { Registry := m.Registry.insert name f })

/-- Register add the output plugin with the manager. -/
def OutputManager.Register (m : OutputManager W Output) (name : String)
    (f : Factory W Output) : Outcome Unit × OutputManager W Output :=
  let exist := (m.Registry name).isSome
  if exist then
    (.panic ("output plugin " ++ name ++ " already registered"), m)
  else
    (.ret (), { Registry := m.Registry.insert name f })

/-- Register add the exporter plugin with the manager. -/
def ExporterManager.Register (m : ExporterManager W Exporter) (name : String)
    (f : Factory W Exporter) : Outcome Unit × ExporterManager W Exporter :=
  let exist := (m.Registry name).isSome
  if exist then
    (.panic ("exporter plugin " ++ name ++ " already registered"), m)
  else
    (.ret (), { Registry := m.Registry.insert name f })

/-- GetPlugin get input by name. -/
def InputManager.GetPlugin (m : InputManager W Input) (name : String) (w : W) :
    Lookup (InputManager W Input) W Input :=
  match m.Registry name with
  | none => ⟨none, some ("input plugin " ++ name ++ " not exist"), m, w⟩
  | some f => ⟨some (f w).1, none, m, (f w).2⟩

/-- GetPlugin get processor by name. -/
def ProcessorManager.GetPlugin (m : ProcessorManager W Processor) (name : String) (w : W) :
    Lookup (ProcessorManager W Processor) W Processor :=
  match m.Registry name with
  | none => ⟨none, some ("processor plugin " ++ name ++ " not exist"), m, w⟩
  | some f => ⟨some (f w).1, none, m, (f w).2⟩

/-- GetPlugin get output by name. -/
def OutputManager.GetPlugin (m : OutputManager W Output) (name : String) (w : W) :
    Lookup (OutputManager W Output) W Output :=
  match m.Registry name with
  | none => ⟨none, some ("output plugin " ++ name ++ " not exist"), m, w⟩
  | some f => ⟨some (f w).1, none, m, (f w).2⟩

/-- GetPlugin get exporter by name. -/
def ExporterManager.GetPlugin (m : ExporterManager W Exporter) (name : String) (w : W) :
    Lookup (ExporterManager W Exporter) W Exporter :=
  match m.Registry name with
  | none => ⟨none, some ("exporter plugin " ++ name ++ " not exist"), m, w⟩
  | some f => ⟨some (f w).1, none, m, (f w).2⟩

/-! ### The singleton accessors

The package keeps, for each kind, a pointer variable and a `sync.Once`.  Manager objects live in
a heap with one region per manager type; a `*InputManager` is `none` (nil) or the address of an
object of that region, so that "the identical manager" is equality of addresses. -/

/-- The package-level state of `plugins`. -/
structure Globals (W Input Processor Output Exporter : Type) where
  /-- the `InputManager` objects allocated so far -/
  inputManagers : List (InputManager W Input)
  /-- the `ProcessorManager` objects allocated so far -/
  processorManagers : List (ProcessorManager W Processor)
  /-- the `OutputManager` objects allocated so far -/
  outputManagers : List (OutputManager W Output)
  /-- the `ExporterManager` objects allocated so far -/
  exporterManagers : List (ExporterManager W Exporter)
  inputManager : Option Nat
  inputManagerOnce : Bool
  processorManager : Option Nat
  processorManagerOnce : Bool
  outputManager : Option Nat
  outputManagerOnce : Bool
  exporterManager : Option Nat
  exporterManagerOnce : Bool

/-- The package state at process start: nil pointers, unused `Once`s, nothing allocated. -/
def Globals.start : Globals W Input Processor Output Exporter :=
  { inputManagers := [], processorManagers := [], outputManagers := [], exporterManagers := [],
    inputManager := none, inputManagerOnce := false,
    processorManager := none, processorManagerOnce := false,
    outputManager := none, outputManagerOnce := false,
    exporterManager := none, exporterManagerOnce := false }

/-- GetInputManager get input manager singleton. -/
def GetInputManager (g : Globals W Input Processor Output Exporter) :
    Option Nat × Globals W Input Processor Output Exporter :=
  let g1 :=
    if g.inputManagerOnce then g
    else { g with
      inputManagers := g.inputManagers ++ [{ Registry := GoMap.empty }]
      inputManager := some g.inputManagers.length
      inputManagerOnce := true }
  (g1.inputManager, g1)

/-- GetProcessorManager get processor manager singleton. -/
def GetProcessorManager (g : Globals W Input Processor Output Exporter) :
    Option Nat × Globals W Input Processor Output Exporter :=
  let g1 :=
    if g.processorManagerOnce then g
    else { g with
      processorManagers := g.processorManagers ++ [{ Registry := GoMap.empty }]
      processorManager := some g.processorManagers.length
      processorManagerOnce := true }
  (g1.processorManager, g1)

/-- GetOutputManager get output manager singleton. -/
def GetOutputManager (g : Globals W Input Processor Output Exporter) :
    Option Nat × Globals W Input Processor Output Exporter :=
  let g1 :=
    if g.outputManagerOnce then g
    else { g with
      outputManagers := g.outputManagers ++ [{ Registry := GoMap.empty }]
      outputManager := some g.outputManagers.length
      outputManagerOnce := true }
  (g1.outputManager, g1)

/-- GetExporterManager get exporter manager singleton. -/
def GetExporterManager (g : Globals W Input Processor Output Exporter) :
    Option Nat × Globals W Input Processor Output Exporter :=
  let g1 :=
    if g.exporterManagerOnce then g
    else { g with
      exporterManagers := g.exporterManagers ++ [{ Registry := GoMap.empty }]
      exporterManager := some g.exporterManagers.length
      exporterManagerOnce := true }
  (g1.exporterManager, g1)

/-- The panic of the Go runtime when a method reads a field through a nil pointer. -/
def nilDereference : String := "runtime error: invalid memory address or nil pointer dereference"

/-- The object a pointer refers to, if any. -/
def deref {M : Type} (heap : List M) (p : Option Nat) : Option (Nat × M) :=
  match p with
  | none => none
  | some a => (heap[a]?).map (fun m => (a, m))

/-- The statement `GetInputManager().Register(name, f)`. -/
def registerInput (name : String) (f : Factory W Input)
    (g : Globals W Input Processor Output Exporter) :
    Outcome Unit × Globals W Input Processor Output Exporter :=
  let r := GetInputManager g
  match deref r.2.inputManagers r.1 with
  | none => (.panic nilDereference, r.2)
  | some (a, m) =>
    ((m.Register name f).1,
      { r.2 with inputManagers := r.2.inputManagers.set a (m.Register name f).2 })

/-- The statement `GetProcessorManager().Register(name, f)`. -/
def registerProcessor (name : String) (f : Factory W Processor)
    (g : Globals W Input Processor Output Exporter) :
    Outcome Unit × Globals W Input Processor Output Exporter :=
  let r := GetProcessorManager g
  match deref r.2.processorManagers r.1 with
  | none => (.panic nilDereference, r.2)
  | some (a, m) =>
    ((m.Register name f).1,
      { r.2 with processorManagers := r.2.processorManagers.set a (m.Register name f).2 })

/-- The statement `GetOutputManager().Register(name, f)`. -/
def registerOutput (name : String) (f : Factory W Output)
    (g : Globals W Input Processor Output Exporter) :
    Outcome Unit × Globals W Input Processor Output Exporter :=
  let r := GetOutputManager g
  match deref r.2.outputManagers r.1 with
  | none => (.panic nilDereference, r.2)
  | some (a, m) =>
    ((m.Register name f).1,
      { r.2 with outputManagers := r.2.outputManagers.set a (m.Register name f).2 })

/-- The statement `GetExporterManager().Register(name, f)`. -/
def registerExporter (name : String) (f : Factory W Exporter)
    (g : Globals W Input Processor Output Exporter) :
    Outcome Unit × Globals W Input Processor Output Exporter :=
  let r := GetExporterManager g
  match deref r.2.exporterManagers r.1 with
  | none => (.panic nilDereference, r.2)
  | some (a, m) =>
    ((m.Register name f).1,
      { r.2 with exporterManagers := r.2.exporterManagers.set a (m.Register name f).2 })

/-- The expression `GetInputManager().GetPlugin(name)`: its outcome, and the package state and
world it leaves. -/
def getInput (name : String) (g : Globals W Input Processor Output Exporter) (w : W) :
    Outcome (Option Input × Option String) × Globals W Input Processor Output Exporter × W :=
  let r := GetInputManager g
  match deref r.2.inputManagers r.1 with
  | none => (.panic nilDereference, r.2, w)
  | some (a, m) =>
    let l := m.GetPlugin name w
    (.ret (l.plugin, l.err), { r.2 with inputManagers := r.2.inputManagers.set a l.manager },
      l.world)

/-- The expression `GetProcessorManager().GetPlugin(name)`. -/
def getProcessor (name : String) (g : Globals W Input Processor Output Exporter) (w : W) :
    Outcome (Option Processor × Option String) ×
      Globals W Input Processor Output Exporter × W :=
  let r := GetProcessorManager g
  match deref r.2.processorManagers r.1 with
  | none => (.panic nilDereference, r.2, w)
  | some (a, m) =>
    let l := m.GetPlugin name w
    (.ret (l.plugin, l.err),
      { r.2 with processorManagers := r.2.processorManagers.set a l.manager }, l.world)

/-- The expression `GetOutputManager().GetPlugin(name)`. -/
def getOutput (name : String) (g : Globals W Input Processor Output Exporter) (w : W) :
    Outcome (Option Output × Option String) × Globals W Input Processor Output Exporter × W :=
  let r := GetOutputManager g
  match deref r.2.outputManagers r.1 with
  | none => (.panic nilDereference, r.2, w)
  | some (a, m) =>
    let l := m.GetPlugin name w
    (.ret (l.plugin, l.err), { r.2 with outputManagers := r.2.outputManagers.set a l.manager },
      l.world)

/-- The expression `GetExporterManager().GetPlugin(name)`. -/
def getExporter (name : String) (g : Globals W Input Processor Output Exporter) (w : W) :
    Outcome (Option Exporter × Option String) ×
      Globals W Input Processor Output Exporter × W :=
  let r := GetExporterManager g
  match deref r.2.exporterManagers r.1 with
  | none => (.panic nilDereference, r.2, w)
  | some (a, m) =>
    let l := m.GetPlugin name w
    (.ret (l.plugin, l.err),
      { r.2 with exporterManagers := r.2.exporterManagers.set a l.manager }, l.world)

/-- One use of the package by a client: an accessor call, a registration through an accessor, or
a lookup through an accessor. -/
inductive Call (W Input Processor Output Exporter : Type) where
  | GetInputManager
  | GetProcessorManager
  | GetOutputManager
  | GetExporterManager
  | RegisterInput (name : String) (f : Factory W Input)
  | RegisterProcessor (name : String) (f : Factory W Processor)
  | RegisterOutput (name : String) (f : Factory W Output)
  | RegisterExporter (name : String) (f : Factory W Exporter)
  | GetInput (name : String)
  | GetProcessor (name : String)
  | GetOutput (name : String)
  | GetExporter (name : String)

/-- The package state and world after one call (a panic of `Register` is recovered by the
caller: the state is the one the panicking call left). -/
def Call.step (c : Call W Input Processor Output Exporter)
    (s : Globals W Input Processor Output Exporter × W) :
    Globals W Input Processor Output Exporter × W :=
  match c with
  | .GetInputManager => ((plugins.GetInputManager s.1).2, s.2)
  | .GetProcessorManager => ((plugins.GetProcessorManager s.1).2, s.2)
  | .GetOutputManager => ((plugins.GetOutputManager s.1).2, s.2)
  | .GetExporterManager => ((plugins.GetExporterManager s.1).2, s.2)
  | .RegisterInput name f => ((registerInput name f s.1).2, s.2)
  | .RegisterProcessor name f => ((registerProcessor name f s.1).2, s.2)
  | .RegisterOutput name f => ((registerOutput name f s.1).2, s.2)
  | .RegisterExporter name f => ((registerExporter name f s.1).2, s.2)
  | .GetInput name => (getInput name s.1 s.2).2
  | .GetProcessor name => (getProcessor name s.1 s.2).2
  | .GetOutput name => (getOutput name s.1 s.2).2
  | .GetExporter name => (getExporter name s.1 s.2).2

/-- The package state and world after a sequence of calls, first call first. -/
def run (cs : List (Call W Input Processor Output Exporter))
    (s : Globals W Input Processor Output Exporter × W) :
    Globals W Input Processor Output Exporter × W :=
  cs.foldl (fun s c => c.step s) s

/-- A second registration of a name is refused and changes nothing: stated once for a manager type
`M` with its `Register` and `GetPlugin`. -/
def DuplicateRefused {M P : Type}
    (register : M → String → Factory W P → Outcome Unit × M)
    (getPlugin : M → String → W → Lookup M W P) : Prop :=
  ∀ (m : M) (N : String) (F1 F2 : Factory W P),
    (register m N F1).1 = .ret () →
      (∃ msg, (register (register m N F1).2 N F2).1 = .panic msg) ∧
      (register (register m N F1).2 N F2).2 = (register m N F1).2 ∧
      ∀ w : W,
        getPlugin (register (register m N F1).2 N F2).2 N w
          = ⟨some (F1 w).1, none, (register m N F1).2, (F1 w).2⟩

/-- A factory that numbers its products: the world is the count of instances made so far. -/
def countingFactory (tag : String) : Factory Nat (String × Nat) := fun w => ((tag, w), w + 1)

/-- A lookup of a name without entry reports it and changes nothing: stated once for a manager
type `M` with its registry and `GetPlugin`; `kind` is the kind word of the manager. -/
def MissingReported {M P : Type} (kind : String)
    (registry : M → GoMap (Factory W P))
    (getPlugin : M → String → W → Lookup M W P) : Prop :=
  ∀ (m : M) (N : String) (w : W),
    registry m N = none →
      (getPlugin m N w).plugin = none ∧
      (∃ msg, (getPlugin m N w).err = some msg ∧
        occursIn kind msg ∧ occursIn N msg ∧ occursIn "not exist" msg) ∧
      (getPlugin m N w).manager = m ∧
      (getPlugin m N w).world = w

/-- A name without entry, once registered, is served by its factory, one invocation per lookup,
and the other names are served as before: stated once for a manager type `M`. -/
def FreshServed {M P : Type}
    (registry : M → GoMap (Factory W P))
    (register : M → String → Factory W P → Outcome Unit × M)
    (getPlugin : M → String → W → Lookup M W P) : Prop :=
  ∀ (m : M) (N : String) (F : Factory W P),
    registry m N = none →
      (register m N F).1 = .ret () ∧
      (∀ w : W, getPlugin (register m N F).2 N w
        = ⟨some (F w).1, none, (register m N F).2, (F w).2⟩) ∧
      (∀ w : W, getPlugin (register m N F).2 N (getPlugin (register m N F).2 N w).world
        = ⟨some (F (F w).2).1, none, (register m N F).2, (F (F w).2).2⟩) ∧
      (∀ (K : String) (w : W), K ≠ N →
        (getPlugin (register m N F).2 K w).plugin = (getPlugin m K w).plugin ∧
        (getPlugin (register m N F).2 K w).err = (getPlugin m K w).err ∧
        (getPlugin (register m N F).2 K w).world = (getPlugin m K w).world)

/-- The calls that go through `GetInputManager`. -/
def Call.isInput : Call W Input Processor Output Exporter → Bool
  | .GetInputManager => true
  | .RegisterInput _ _ => true
  | .GetInput _ => true
  | _ => false

/-- The factory a call registers for the Input name `N`, if the call is a registration of
it. -/
def Call.inputEntry (N : String) :
    Call W Input Processor Output Exporter → Option (Factory W Input)
  | .RegisterInput name f => if name = N then some f else none
  | _ => none

/-- The variables of the package that belong to the Input kind. -/
def inputPart (g : Globals W Input Processor Output Exporter) :
    List (InputManager W Input) × Option Nat × Bool :=
  (g.inputManagers, g.inputManager, g.inputManagerOnce)

/-- The Input variables after the calls `cs`: untouched as long as no call went through
`GetInputManager`; from then on one manager, at address 0, whose registry holds for each
name the factory of the first registration of that name. -/
def InputInv (cs : List (Call W Input Processor Output Exporter))
    (p : List (InputManager W Input) × Option Nat × Bool) : Prop :=
  (p = ([], none, false) ∧ ∀ c ∈ cs, c.isInput = false) ∨
  (∃ m, p = ([m], some 0, true) ∧ ∀ N, m.Registry N = cs.findSome? (Call.inputEntry N))

/-- The calls that go through `GetProcessorManager`. -/
def Call.isProcessor : Call W Input Processor Output Exporter → Bool
  | .GetProcessorManager => true
  | .RegisterProcessor _ _ => true
  | .GetProcessor _ => true
  | _ => false

/-- The factory a call registers for the Processor name `N`, if the call is a registration of
it. -/
def Call.processorEntry (N : String) :
    Call W Input Processor Output Exporter → Option (Factory W Processor)
  | .RegisterProcessor name f => if name = N then some f else none
  | _ => none

/-- The variables of the package that belong to the Processor kind. -/
def processorPart (g : Globals W Input Processor Output Exporter) :
    List (ProcessorManager W Processor) × Option Nat × Bool :=
  (g.processorManagers, g.processorManager, g.processorManagerOnce)

/-- The Processor variables after the calls `cs`: untouched as long as no call went through
`GetProcessorManager`; from then on one manager, at address 0, whose registry holds for each
name the factory of the first registration of that name. -/
def ProcessorInv (cs : List (Call W Input Processor Output Exporter))
    (p : List (ProcessorManager W Processor) × Option Nat × Bool) : Prop :=
  (p = ([], none, false) ∧ ∀ c ∈ cs, c.isProcessor = false) ∨
  (∃ m, p = ([m], some 0, true) ∧ ∀ N, m.Registry N = cs.findSome? (Call.processorEntry N))

/-- The calls that go through `GetOutputManager`. -/
def Call.isOutput : Call W Input Processor Output Exporter → Bool
  | .GetOutputManager => true
  | .RegisterOutput _ _ => true
  | .GetOutput _ => true
  | _ => false

/-- The factory a call registers for the Output name `N`, if the call is a registration of
it. -/
def Call.outputEntry (N : String) :
    Call W Input Processor Output Exporter → Option (Factory W Output)
  | .RegisterOutput name f => if name = N then some f else none
  | _ => none

/-- The variables of the package that belong to the Output kind. -/
def outputPart (g : Globals W Input Processor Output Exporter) :
    List (OutputManager W Output) × Option Nat × Bool :=
  (g.outputManagers, g.outputManager, g.outputManagerOnce)

/-- The Output variables after the calls `cs`: untouched as long as no call went through
`GetOutputManager`; from then on one manager, at address 0, whose registry holds for each
name the factory of the first registration of that name. -/
def OutputInv (cs : List (Call W Input Processor Output Exporter))
    (p : List (OutputManager W Output) × Option Nat × Bool) : Prop :=
  (p = ([], none, false) ∧ ∀ c ∈ cs, c.isOutput = false) ∨
  (∃ m, p = ([m], some 0, true) ∧ ∀ N, m.Registry N = cs.findSome? (Call.outputEntry N))

/-- The calls that go through `GetExporterManager`. -/
def Call.isExporter : Call W Input Processor Output Exporter → Bool
  | .GetExporterManager => true
  | .RegisterExporter _ _ => true
  | .GetExporter _ => true
  | _ => false

/-- The factory a call registers for the Exporter name `N`, if the call is a registration of
it. -/
def Call.exporterEntry (N : String) :
    Call W Input Processor Output Exporter → Option (Factory W Exporter)
  | .RegisterExporter name f => if name = N then some f else none
  | _ => none

/-- The variables of the package that belong to the Exporter kind. -/
def exporterPart (g : Globals W Input Processor Output Exporter) :
    List (ExporterManager W Exporter) × Option Nat × Bool :=
  (g.exporterManagers, g.exporterManager, g.exporterManagerOnce)

/-- The Exporter variables after the calls `cs`: untouched as long as no call went through
`GetExporterManager`; from then on one manager, at address 0, whose registry holds for each
name the factory of the first registration of that name. -/
def ExporterInv (cs : List (Call W Input Processor Output Exporter))
    (p : List (ExporterManager W Exporter) × Option Nat × Bool) : Prop :=
  (p = ([], none, false) ∧ ∀ c ∈ cs, c.isExporter = false) ∨
  (∃ m, p = ([m], some 0, true) ∧ ∀ N, m.Registry N = cs.findSome? (Call.exporterEntry N))

/-- What a lookup of `N` answers, and the world it leaves, when the registry entry of `N` is
`entry`. -/
def served {P : Type} (kind : String) (entry : Option (Factory W P)) (N : String) (w : W) :
    Outcome (Option P × Option String) × W :=
  match entry with
  | none => (.ret (none, some (kind ++ " plugin " ++ N ++ " not exist")), w)
  | some F => (.ret (some (F w).1, none), (F w).2)

/-- The manager of a kind is a singleton for the clients of the package, stated once for a kind
with its accessor, its lookup through the accessor, the calls of the kind (`isKind`) and the
registrations of the kind (`entry`):
every accessor call, after any sequence of calls, returns the same address;
once a call of the kind has been made, the accessor leaves the package state as it is;
a lookup through the accessor answers from the first registration of the name made through
the accessor, and "not exist" when there is none;
a call of another kind registers nothing here. -/
def IsSingleton {P : Type} (kind : String)
    (accessor : Globals W Input Processor Output Exporter →
      Option Nat × Globals W Input Processor Output Exporter)
    (lookup : String → Globals W Input Processor Output Exporter → W →
      Outcome (Option P × Option String) × Globals W Input Processor Output Exporter × W)
    (isKind : Call W Input Processor Output Exporter → Bool)
    (entry : String → Call W Input Processor Output Exporter → Option (Factory W P)) : Prop :=
  (∃ a : Nat, ∀ (cs : List (Call W Input Processor Output Exporter)) (w0 : W),
    (accessor (run cs (Globals.start, w0)).1).1 = some a) ∧
  (∀ (cs : List (Call W Input Processor Output Exporter)) (w0 : W),
    (∃ c ∈ cs, isKind c = true) →
      (accessor (run cs (Globals.start, w0)).1).2 = (run cs (Globals.start, w0)).1) ∧
  (∀ (cs : List (Call W Input Processor Output Exporter)) (w0 : W) (N : String) (w : W),
    ((lookup N (run cs (Globals.start, w0)).1 w).1,
      (lookup N (run cs (Globals.start, w0)).1 w).2.2)
      = served kind (cs.findSome? (entry N)) N w) ∧
  (∀ c, isKind c = false → ∀ N, entry N c = none)

/-- A client that asks for the Input manager, registers Input "cpu" with the counting factory
"F1", asks for the Processor and the Input managers, and tries Input "cpu" again with "F2". -/
def exampleCalls : List (Call Nat (String × Nat) (String × Nat) Unit Unit) :=
  [.GetInputManager, .RegisterInput "cpu" (countingFactory "F1"), .GetProcessorManager,
    .GetInputManager, .RegisterInput "cpu" (countingFactory "F2")]

end plugins

/-! ## plugins/inputs/mysql/mysqld.go -/

namespace mysql

/-- The collection methods of the mysqld exporter library (`collector.Scrape...{}`) that the
adapter lists in its table. -/
inductive CollectorUnit where
  | ScrapeGlobalStatus
  | ScrapeGlobalVariables
  | ScrapeSlaveStatus
  | ScrapeProcesslist
  | ScrapeUser
  | ScrapeTableSchema
  | ScrapeInfoSchemaInnodbTablespaces
  | ScrapeInnodbMetrics
  | ScrapeAutoIncrementColumns
  | ScrapeBinlogSize
  | ScrapePerfTableIOWaits
  | ScrapePerfIndexIOWaits
  | ScrapePerfTableLockWaits
  | ScrapePerfEventsStatements
  | ScrapePerfEventsStatementsSum
  | ScrapePerfEventsWaits
  | ScrapePerfFileEvents
  | ScrapePerfFileInstances
  | ScrapePerfMemoryEvents
  | ScrapePerfReplicationGroupMembers
  | ScrapePerfReplicationGroupMemberStats
  | ScrapePerfReplicationApplierStatsByWorker
  | ScrapeUserStat
  | ScrapeClientStat
  | ScrapeTableStat
  | ScrapeSchemaStat
  | ScrapeInnodbCmp
  | ScrapeInnodbCmpMem
  | ScrapeQueryResponseTime
  | ScrapeEngineTokudbStatus
  | ScrapeEngineInnodbStatus
  | ScrapeHeartbeat
  | ScrapeSlaveHosts
  | ScrapeReplicaHost
  deriving DecidableEq, Repr

/-- A `collector.Scraper` interface value: a unit of the library, or the adapter's wrapper around
a scraper.  `ignoredVersionScraper`: a wrapper which pseudo-downgrades scraper version to make
it compatible with Oceanbase. -/
inductive Scraper where
  | unit (u : CollectorUnit)
  | ignoredVersionScraper (Scraper : Scraper)
  deriving DecidableEq, Repr

/-- The method `Name()`: the wrapper embeds its scraper and defines no `Name`, so the name is
the embedded scraper's; the names of the units are the library's (`libName`). -/
def Scraper.Name (libName : CollectorUnit → String) : Scraper → String
  | .unit u => libName u
  | .ignoredVersionScraper c => c.Name libName

/-- The method `Version()`: the wrapper answers `0.0`, a unit answers what the library says
(`libVersion`). -/
def Scraper.Version (libVersion : CollectorUnit → ℚ) : Scraper → ℚ
  | .unit u => libVersion u
  | .ignoredVersionScraper _ => 0

/-- The function `ignoreVersion`. -/
def ignoreVersion (c : Scraper) : Scraper := .ignoredVersionScraper c

/-- The table `scrapers`: scrapers lists all possible collection methods and if they should be
enabled by default.  A Go map literal, written here as its entries (the keys are distinct). -/
def scrapers : List (Scraper × Bool) :=
  [
    (.unit .ScrapeGlobalStatus, true),
    (.unit .ScrapeGlobalVariables, true),
    (.unit .ScrapeSlaveStatus, true),
    (.unit .ScrapeProcesslist, false),
    (.unit .ScrapeUser, false),
    (.unit .ScrapeTableSchema, false),
    (.unit .ScrapeInfoSchemaInnodbTablespaces, false),
    (.unit .ScrapeInnodbMetrics, false),
    (.unit .ScrapeAutoIncrementColumns, false),
    (.unit .ScrapeBinlogSize, false),
    (.unit .ScrapePerfTableIOWaits, false),
    (.unit .ScrapePerfIndexIOWaits, false),
    (.unit .ScrapePerfTableLockWaits, false),
    (.unit .ScrapePerfEventsStatements, false),
    (.unit .ScrapePerfEventsStatementsSum, false),
    (.unit .ScrapePerfEventsWaits, false),
    (.unit .ScrapePerfFileEvents, false),
    (.unit .ScrapePerfFileInstances, false),
    (.unit .ScrapePerfMemoryEvents, false),
    (.unit .ScrapePerfReplicationGroupMembers, false),
    (.unit .ScrapePerfReplicationGroupMemberStats, false),
    (.unit .ScrapePerfReplicationApplierStatsByWorker, false),
    (.unit .ScrapeUserStat, false),
    (.unit .ScrapeClientStat, false),
    (.unit .ScrapeTableStat, false),
    (.unit .ScrapeSchemaStat, false),
    (.unit .ScrapeInnodbCmp, true),
    (.unit .ScrapeInnodbCmpMem, true),
    (.unit .ScrapeQueryResponseTime, true),
    (.unit .ScrapeEngineTokudbStatus, false),
    (.unit .ScrapeEngineInnodbStatus, false),
    (.unit .ScrapeHeartbeat, false),
    (.unit .ScrapeSlaveHosts, false),
    (.unit .ScrapeReplicaHost, false)
  ]

/-- The struct `MysqldConfig`. -/
structure MysqldConfig where
  Dsn : String
  ScraperFlags : GoMap Bool

/-- The value `log2.NewLogrusLogger(log.StandardLogger())`, the only logger the adapter builds. -/
inductive Logger where
  | logrus
  deriving DecidableEq, Repr

/-- Modelled from the spec: the library type `collector.Exporter` built by `collector.New`,
which the spec calls the wrapped collector: a gatherer over the connection string and the active
unit set it was built with. -/
structure Exporter where
  dsn : String
  scrapers : List Scraper
  logger : Logger
  deriving DecidableEq, Repr

/-- Modelled from the spec: the library type `prometheus.Registry`, which the spec calls the
internal aggregation registry: the collectors registered with it and not deregistered since. -/
structure Registry where
  collectors : List Exporter
  deriving DecidableEq, Repr

/-- Modelled from the spec: `prometheus.NewRegistry()`, a registry with no collector. -/
def NewRegistry : Registry := { collectors := [] }

/-- Modelled from the spec: `Registry.Register`: adds the collector; a collector that is already
registered is refused with an error. -/
def Registry.Register (r : Registry) (c : Exporter) : Option String × Registry :=
  if c ∈ r.collectors then
    (some "duplicate metrics collector registration attempted", r)
  else
    (none, { collectors := r.collectors ++ [c] })

/-- Modelled from the spec: `Registry.Unregister`: deregisters the collector and reports whether
it was registered. -/
def Registry.Unregister (r : Registry) (c : Exporter) : Bool × Registry :=
  (decide (c ∈ r.collectors), { collectors := r.collectors.erase c })

/-- The struct `MysqldExporter`.  A pointer field is `none` when nil; the registry and the
collector are reachable only through the instance, so the objects stand in place of their
addresses.  The Go zero value of a slice is the nil slice, the list `[]`. -/
structure MysqldExporter where
  Config : Option MysqldConfig
  logger : Option Logger
  registry : Option Registry
  collector : Option Exporter
  enabledScrapers : List Scraper

/-- The instance `&MysqldExporter{}`: every field at its zero value. -/
def MysqldExporter.zero : MysqldExporter :=
  { Config := none, logger := none, registry := none, collector := none, enabledScrapers := [] }

/-- The method `Close`: `m.registry.Unregister(m.collector)` reads through both pointers (the
registry's lock, the collector's descriptors), so a nil one is a nil dereference; the boolean
`Unregister` answers is dropped. -/
def MysqldExporter.Close (m : MysqldExporter) : Outcome (Option String) × MysqldExporter :=
  match m.registry, m.collector with
  | some r, some c => (.ret none, { m with registry := some (r.Unregister c).2 })
  | _, _ => (.panic plugins.nilDereference, m)

/-- The loop of `Init` over the table, in the order `order` in which the range statement
happens to visit the entries. -/
def enabledScrapersOf (libName : CollectorUnit → String) (ScraperFlags : GoMap Bool)
    (order : List (Scraper × Bool)) : List Scraper :=
  order.foldl
    (fun enabledScrapers entry =>
      let scraper := entry.1
      let enabledByDefault := entry.2
      let found := (ScraperFlags (scraper.Name libName)).isSome
      let enabled := (ScraperFlags (scraper.Name libName)).getD false
      if (found && enabled) || (!found && enabledByDefault) then
        enabledScrapers ++ [ignoreVersion scraper]
      else
        enabledScrapers)
    []

/-- The method `Init`: its error and the instance it leaves.  `yamlMarshal`, `yamlUnmarshal` and
`libName` are the libraries the method calls; `order` is the iteration order of the range over
`scrapers`.  `commandLineParse` and the log line touch only `os.Args`, the argument parser and
the log output, none of which the instance reads, and carry no state here. -/
def MysqldExporter.Init {RawConfig Bytes : Type}
    (yamlMarshal : RawConfig → Except String Bytes)
    (yamlUnmarshal : Bytes → Except String MysqldConfig)
    (libName : CollectorUnit → String) (order : List (Scraper × Bool))
    (m : MysqldExporter) (config : RawConfig) : Option String × MysqldExporter :=
  match yamlMarshal config with
  | .error err => (some ("mysqld exporter encode config: " ++ err), m)
  | .ok configBytes =>
    match yamlUnmarshal configBytes with
    | .error err => (some ("mysqld exporter decode config: " ++ err), m)
    | .ok pluginConfig =>
      let enabledScrapers := enabledScrapersOf libName pluginConfig.ScraperFlags order
      let collector : Exporter :=
        { dsn := pluginConfig.Dsn, scrapers := enabledScrapers, logger := .logrus }
      let registered := NewRegistry.Register collector
      let m1 : MysqldExporter :=
        { Config := some pluginConfig, logger := some .logrus, registry := some registered.2,
          collector := some collector, enabledScrapers := enabledScrapers }
      match registered.1 with
      | some err => (some ("mysqld exporter register collector: " ++ err), m1)
      | none => (none, m1)

/-- The builtin `append(metrics, more...)` on a slice that may be nil (`none`): appending
nothing to the nil slice leaves it nil. -/
def goAppend {α : Type} (metrics : Option (List α)) (more : List α) : Option (List α) :=
  match metrics, more with
  | none, [] => none
  | none, x :: xs => some (x :: xs)
  | some ys, xs => some (ys ++ xs)

/-- The method `Collect`: the result pair `(metrics, err)`, or the nil dereference of
`m.registry.Gather()` on a nil registry.  `Gather` is what the library's gather call answers on
a registry (metric families and error); `ParseFromMetricFamily` is the function of package
`metric`. -/
def MysqldExporter.Collect {MetricFamily Metric : Type}
    (Gather : Registry → List MetricFamily × Option String)
    (ParseFromMetricFamily : MetricFamily → List Metric)
    (m : MysqldExporter) : Outcome (Option (List Metric) × Option String) :=
  match m.registry with
  | none => .panic plugins.nilDereference
  | some r =>
    match (Gather r).2 with
    | some err => .ret (none, some ("mysql exporter registry gather: " ++ err))
    | none =>
      .ret ((Gather r).1.foldl
        (fun metrics metricFamily => goAppend metrics (ParseFromMetricFamily metricFamily))
        none, none)

/-- The test of the loop of `Init` on one table entry. -/
def selected (libName : CollectorUnit → String) (ScraperFlags : GoMap Bool)
    (entry : Scraper × Bool) : Bool :=
  ((ScraperFlags (entry.1.Name libName)).isSome &&
      (ScraperFlags (entry.1.Name libName)).getD false) ||
    (!(ScraperFlags (entry.1.Name libName)).isSome && entry.2)

/-- The unit names used in the examples: the global-status unit is "global_status", the
global-variables unit "global_variables", any other unit "other". -/
def exampleNames : CollectorUnit → String
  | .ScrapeGlobalStatus => "global_status"
  | .ScrapeGlobalVariables => "global_variables"
  | _ => "other"

/-- The configuration record with an empty connection string and the flags
`{"global_status": false}`. -/
def exampleConfig : MysqldConfig :=
  { Dsn := "", ScraperFlags := GoMap.insert GoMap.empty "global_status" false }

/-- A gather call that answers one metric family per registered collector, named by the
collector's connection string, and never an error. -/
def gatherRegistered (r : Registry) : List String × Option String :=
  (r.collectors.map (fun c => c.dsn), none)

/-- A gather call that answers two families and the error "connection refused". -/
def gatherFailing (_ : Registry) : List String × Option String :=
  (["up", "scrapes"], some "connection refused")

/-- A parse that turns the family named `f` into the two samples `(f, 0)` and `(f, 1)`. -/
def twoSamples (f : String) : List (String × Nat) := [(f, 0), (f, 1)]

/-- The instance a successful `Init` with `exampleConfig` leaves. -/
def readyExample : MysqldExporter :=
  (MysqldExporter.Init (fun c : MysqldConfig => Except.ok c) Except.ok exampleNames scrapers
    MysqldExporter.zero exampleConfig).2

/-- The results of `Collect` that are an error report: the call returns, with a nil list and a
non-nil error. -/
def ReportsError {Metric : Type} (o : Outcome (Option (List Metric) × Option String)) : Prop :=
  ∃ err, o = .ret (none, some err)

end mysql

/-! ## api/response/response.go -/

namespace response

/-- A Go `interface{}` value as far as `BuildResponse` tells values apart: the nil interface, a
value whose dynamic type has kind `reflect.Slice`, a value of any other kind, and the struct
`IterableData` (kind `reflect.Struct`). -/
inductive Any (α : Type) where
  | nil
  | slice (elems : List α)
  | scalar (v : α)
  | IterableData (Contents : Any α)
  deriving DecidableEq, Repr

/-- The test `reflect.TypeOf(data).Kind() == reflect.Slice` on a non-nil value. -/
def Any.isSlice {α : Type} : Any α → Bool
  | .slice _ => true
  | _ => false

/-- Modelled from the spec: the type `errors.ErrorCode` of package `errors`, which is not part
of the sources at hand: a stable code and the HTTP status it is reported under. -/
structure ErrorCode where
  Code : Int
  Kind : Int
  deriving DecidableEq, Repr

/-- Modelled from the spec: the type `errors.AgentError`, a structured value carrying a stable
code and a message. -/
structure AgentError where
  ErrorCode : ErrorCode
  message : String
  deriving DecidableEq, Repr

/-- Modelled from the spec: the method `AgentError.DefaultMessage`, the message the error
carries. -/
def AgentError.DefaultMessage (e : AgentError) : String := e.message

/-- Modelled from the spec: `errors.Occur(code, err)`, the catch-all wrapping of an error: an
`AgentError` with the given code whose message is the message of the wrapped error. -/
def Occur (code : ErrorCode) (err : String) : AgentError :=
  { ErrorCode := code, message := err }

/-- A Go `error` value: nil, a `*errors.AgentError` (the pointer itself may be nil), or an error
of another type, with its message. -/
inductive GoError where
  | nil
  | agent (e : Option AgentError)
  | other (message : String)
  deriving DecidableEq, Repr

/-- The struct `ApiError`. -/
structure ApiError (α : Type) where
  Code : Int
  Message : String
  SubErrors : List (Any α)
  deriving DecidableEq, Repr

/-- AgentResponse defines basic API return structure for HTTP responses; `Timestamp` is a
reading of the clock. -/
structure AgentResponse (α : Type) where
  Successful : Bool
  Timestamp : Nat
  Duration : Int
  Status : Int
  TraceId : String
  Server : String
  Data : Any α
  Error : Option (ApiError α)
  deriving DecidableEq, Repr

/-- The function `NewSuccessResponse`; `now` is what `time.Now()` reads. -/
def NewSuccessResponse {α : Type} (now : Nat) (data : Any α) : AgentResponse α :=
  { Successful := true, Timestamp := now, Duration := 0, Status := 200, TraceId := "",
    Server := "", Data := data, Error := none }

/-- The function `NewErrorResponse` on a non-nil `*errors.AgentError`. -/
def NewErrorResponse {α : Type} (now : Nat) (err : AgentError) : AgentResponse α :=
  { Successful := false, Timestamp := now, Duration := 0, Status := err.ErrorCode.Kind,
    TraceId := "", Server := "", Data := .nil,
    Error := some { Code := err.ErrorCode.Code, Message := err.DefaultMessage, SubErrors := [] } }

/-- The comparison `err == nil` on an `error` interface value (a nil pointer of type
`*errors.AgentError` inside the interface is not the nil interface). -/
def GoError.isNil : GoError → Bool
  | .nil => true
  | _ => false

/-- The message `err.Error()` of a non-nil error. -/
def GoError.Error : GoError → String
  | .other message => message
  | .agent (some e) => e.DefaultMessage
  | _ => ""

/-- The comparison `data == nil` on an `interface{}` value. -/
def Any.isNil {α : Type} : Any α → Bool
  | .nil => true
  | _ => false

/-- The function `BuildResponse`; `ErrUnexpected` is the constant `errors.ErrUnexpected`. -/
def BuildResponse {α : Type} (now : Nat) (ErrUnexpected : ErrorCode) (data : Any α)
    (err : GoError) : AgentResponse α :=
  let asserted : Option AgentError × Bool :=
    match err with
    | .agent e => (e, true)
    | _ => (none, false)
  let ok := asserted.2
  let agenterr : Option AgentError :=
    if !ok && !err.isNil then some (Occur ErrUnexpected err.Error) else asserted.1
  match agenterr with
  | some e => NewErrorResponse now e
  | none =>
    if !data.isNil && data.isSlice then
      let iterableData : Any α := .IterableData data
      NewSuccessResponse now iterableData
    else
      NewSuccessResponse now data

end response

/-! ## Properties -/

namespace plugins

variable {W Input Processor Output Exporter : Type}

/-- C1. For each of the four plugin kinds: once `Register(N, F1)` has succeeded, `Register(N, F2)`
panics, the manager (its registry mapping) is exactly what it was before that second call, and
`GetPlugin(N)` still returns the product of `F1` with a nil error. -/
theorem register_twice_keeps_first {Input Processor Output Exporter : Type} :
    DuplicateRefused (@InputManager.Register W Input) (@InputManager.GetPlugin W Input) ∧
    DuplicateRefused (@ProcessorManager.Register W Processor)
      (@ProcessorManager.GetPlugin W Processor) ∧
    DuplicateRefused (@OutputManager.Register W Output) (@OutputManager.GetPlugin W Output) ∧
    DuplicateRefused (@ExporterManager.Register W Exporter)
      (@ExporterManager.GetPlugin W Exporter) := by
  refine ⟨?_, ?_, ?_, ?_⟩ <;> intro m N F1 F2 h
  · cases hm : m.Registry N <;>
      simp_all [InputManager.Register, InputManager.GetPlugin, GoMap.insert]
  · cases hm : m.Registry N <;>
      simp_all [ProcessorManager.Register, ProcessorManager.GetPlugin, GoMap.insert]
  · cases hm : m.Registry N <;>
      simp_all [OutputManager.Register, OutputManager.GetPlugin, GoMap.insert]
  · cases hm : m.Registry N <;>
      simp_all [ExporterManager.Register, ExporterManager.GetPlugin, GoMap.insert]

/-- C1 at Input "cpu": `F1` tags its products "F1", `F2` tags them "F2"; the second registration
panics and the lookup yields an "F1" product. -/
theorem register_twice_keeps_first_witness :
    ((InputManager.Register ⟨GoMap.empty⟩ "cpu" (countingFactory "F1")).1 = .ret ()) ∧
    ((∃ msg, (InputManager.Register
        (InputManager.Register ⟨GoMap.empty⟩ "cpu" (countingFactory "F1")).2
        "cpu" (countingFactory "F2")).1 = .panic msg) ∧
     (InputManager.Register
        (InputManager.Register ⟨GoMap.empty⟩ "cpu" (countingFactory "F1")).2
        "cpu" (countingFactory "F2")).2
       = (InputManager.Register ⟨GoMap.empty⟩ "cpu" (countingFactory "F1")).2 ∧
     ∀ w : Nat,
       InputManager.GetPlugin (InputManager.Register
          (InputManager.Register ⟨GoMap.empty⟩ "cpu" (countingFactory "F1")).2
          "cpu" (countingFactory "F2")).2 "cpu" w
         = ⟨some (countingFactory "F1" w).1, none,
            (InputManager.Register ⟨GoMap.empty⟩ "cpu" (countingFactory "F1")).2,
            (countingFactory "F1" w).2⟩) :=
  ⟨rfl, (@register_twice_keeps_first Nat (String × Nat) Unit Unit Unit).1 ⟨GoMap.empty⟩ "cpu"
      (countingFactory "F1") (countingFactory "F2") rfl⟩

/-- The kind word, the name and the words "not exist" occur in the message of `GetPlugin`. -/
theorem occursIn_not_exist (kind N : String) :
    occursIn kind (kind ++ " plugin " ++ N ++ " not exist") ∧
    occursIn N (kind ++ " plugin " ++ N ++ " not exist") ∧
    occursIn "not exist" (kind ++ " plugin " ++ N ++ " not exist") := by
  refine ⟨⟨[], " plugin ".data ++ N.data ++ " not exist".data, ?_⟩,
    ⟨kind.data ++ " plugin ".data, " not exist".data, ?_⟩,
    ⟨kind.data ++ " plugin ".data ++ N.data ++ [' '], [], ?_⟩⟩
  · simp [String.data_append]
  · simp [String.data_append]
  · simp [String.data_append]

/-- C2. For each of the four plugin kinds, every manager state and every name without entry:
`GetPlugin` returns a nil plugin and an error whose message contains the kind word
("input", "processor", "output", "exporter"), the requested name and "not exist"; the manager
(its registry mapping) and the world are as before the call. -/
theorem getPlugin_missing {Input Processor Output Exporter : Type} :
    MissingReported "input" (@InputManager.Registry W Input) (@InputManager.GetPlugin W Input) ∧
    MissingReported "processor" (@ProcessorManager.Registry W Processor)
      (@ProcessorManager.GetPlugin W Processor) ∧
    MissingReported "output" (@OutputManager.Registry W Output)
      (@OutputManager.GetPlugin W Output) ∧
    MissingReported "exporter" (@ExporterManager.Registry W Exporter)
      (@ExporterManager.GetPlugin W Exporter) := by
  refine ⟨?_, ?_, ?_, ?_⟩ <;> intro m N w h
  · simpa [InputManager.GetPlugin, h] using occursIn_not_exist "input" N
  · simpa [ProcessorManager.GetPlugin, h] using occursIn_not_exist "processor" N
  · simpa [OutputManager.GetPlugin, h] using occursIn_not_exist "output" N
  · simpa [ExporterManager.GetPlugin, h] using occursIn_not_exist "exporter" N

/-- C2 at the Processor manager holding only "cpu", asked for "nope". -/
theorem getPlugin_missing_witness :
    (ProcessorManager.GetPlugin
        ((ProcessorManager.Register ⟨GoMap.empty⟩ "cpu" (countingFactory "F1")).2) "nope" 7).plugin
      = none ∧
    (∃ msg, (ProcessorManager.GetPlugin
        ((ProcessorManager.Register ⟨GoMap.empty⟩ "cpu" (countingFactory "F1")).2) "nope" 7).err
          = some msg ∧
      occursIn "processor" msg ∧ occursIn "nope" msg ∧ occursIn "not exist" msg) ∧
    (ProcessorManager.GetPlugin
        ((ProcessorManager.Register ⟨GoMap.empty⟩ "cpu" (countingFactory "F1")).2) "nope" 7).manager
      = (ProcessorManager.Register ⟨GoMap.empty⟩ "cpu" (countingFactory "F1")).2 ∧
    (ProcessorManager.GetPlugin
        ((ProcessorManager.Register ⟨GoMap.empty⟩ "cpu" (countingFactory "F1")).2) "nope" 7).world
      = 7 :=
  (@getPlugin_missing Nat Unit (String × Nat) Unit Unit).2.1
    ((ProcessorManager.Register ⟨GoMap.empty⟩ "cpu" (countingFactory "F1")).2) "nope" 7
    (by simp [ProcessorManager.Register, GoMap.insert, GoMap.empty])

/-- C3. For each of the four plugin kinds, every manager state, every name `N` without entry and
every factory `F`: `Register(N, F)` returns; `GetPlugin(N)` then returns the product of one
invocation of `F` with a nil error, and a second lookup is a second invocation (on the world the
first one left); every other name is looked up with the result it had before the registration. -/
theorem register_then_getPlugin {Input Processor Output Exporter : Type} :
    FreshServed (@InputManager.Registry W Input) (@InputManager.Register W Input)
      (@InputManager.GetPlugin W Input) ∧
    FreshServed (@ProcessorManager.Registry W Processor) (@ProcessorManager.Register W Processor)
      (@ProcessorManager.GetPlugin W Processor) ∧
    FreshServed (@OutputManager.Registry W Output) (@OutputManager.Register W Output)
      (@OutputManager.GetPlugin W Output) ∧
    FreshServed (@ExporterManager.Registry W Exporter) (@ExporterManager.Register W Exporter)
      (@ExporterManager.GetPlugin W Exporter) := by
  refine ⟨?_, ?_, ?_, ?_⟩ <;> intro m N F h
  · simp [InputManager.Register, InputManager.GetPlugin, GoMap.insert, h]
    intro K w hK
    cases m.Registry K <;> simp [hK]
  · simp [ProcessorManager.Register, ProcessorManager.GetPlugin, GoMap.insert, h]
    intro K w hK
    cases m.Registry K <;> simp [hK]
  · simp [OutputManager.Register, OutputManager.GetPlugin, GoMap.insert, h]
    intro K w hK
    cases m.Registry K <;> simp [hK]
  · simp [ExporterManager.Register, ExporterManager.GetPlugin, GoMap.insert, h]
    intro K w hK
    cases m.Registry K <;> simp [hK]

/-- C3 at the empty Exporter manager, name "mysqld", the counting factory: the first lookup
yields product number 0, the second product number 1. -/
theorem register_then_getPlugin_witness :
    (ExporterManager.GetPlugin
        (ExporterManager.Register ⟨GoMap.empty⟩ "mysqld" (countingFactory "F")).2 "mysqld" 0).plugin
      = some ("F", 0) ∧
    (ExporterManager.GetPlugin
        (ExporterManager.Register ⟨GoMap.empty⟩ "mysqld" (countingFactory "F")).2 "mysqld"
        (ExporterManager.GetPlugin
          (ExporterManager.Register ⟨GoMap.empty⟩ "mysqld" (countingFactory "F")).2
          "mysqld" 0).world).plugin
      = some ("F", 1) := by
  have h := (@register_then_getPlugin Nat Unit Unit Unit (String × Nat)).2.2.2
    ⟨GoMap.empty⟩ "mysqld" (countingFactory "F") rfl
  exact ⟨by rw [h.2.1 0]; rfl, by rw [h.2.2.1 0]; rfl⟩

theorem run_append_singleton (cs : List (Call W Input Processor Output Exporter))
    (c : Call W Input Processor Output Exporter)
    (s : Globals W Input Processor Output Exporter × W) :
    run (cs ++ [c]) s = c.step (run cs s) := by
  simp [run, List.foldl_append]

theorem findSome_append_singleton {α β : Type} (f : α → Option β) (l : List α) (a : α) :
    (l ++ [a]).findSome? f = (l.findSome? f).or (f a) := by
  simp only [List.findSome?_append]
  congr 1
  simp only [List.findSome?]
  cases f a <;> rfl

theorem inputPart_step (c : Call W Input Processor Output Exporter)
    (s : Globals W Input Processor Output Exporter × W) (hc : c.isInput = false) :
    inputPart (c.step s).1 = inputPart s.1 := by
  cases c <;> simp only [Call.isInput, Bool.true_eq_false] at hc <;>
    simp only [Call.step, GetInputManager, GetProcessorManager, GetOutputManager,
      GetExporterManager, registerInput, registerProcessor, registerOutput, registerExporter,
      getInput, getProcessor, getOutput, getExporter, inputPart] <;>
    (repeat' split) <;> rfl

theorem inputEntry_of_not_isInput (c : Call W Input Processor Output Exporter) (N : String)
    (hc : c.isInput = false) : c.inputEntry N = none := by
  cases c <;> simp [Call.isInput] at hc <;> rfl

theorem inputEntry_none_of_all (cs : List (Call W Input Processor Output Exporter)) (N : String)
    (h : ∀ c ∈ cs, c.isInput = false) : cs.findSome? (Call.inputEntry N) = none := by
  rw [List.findSome?_eq_none_iff]
  intro c hc
  exact inputEntry_of_not_isInput c N (h c hc)

theorem inputInv_step (cs : List (Call W Input Processor Output Exporter))
    (c : Call W Input Processor Output Exporter)
    (s : Globals W Input Processor Output Exporter × W)
    (ih : InputInv cs (inputPart s.1)) :
    InputInv (cs ++ [c]) (inputPart (c.step s).1) := by
  cases hc : c.isInput with
  | false =>
    rw [inputPart_step c s hc]
    rcases ih with ⟨h1, h4⟩ | ⟨m, h1, h4⟩
    · left
      refine ⟨h1, ?_⟩
      intro c' hc'
      rcases List.mem_append.1 hc' with h | h
      · exact h4 c' h
      · rw [List.mem_singleton.1 h]
        exact hc
    · right
      refine ⟨m, h1, ?_⟩
      intro N
      rw [h4 N, findSome_append_singleton, inputEntry_of_not_isInput c N hc]
      simp
  | true =>
    right
    obtain ⟨⟨ims, pms, oms, ems, im, io, pm, po, om, oo, em, eo⟩, w⟩ := s
    rcases ih with ⟨h1, h4⟩ | ⟨m, h1, h4⟩
    · have h5 : ∀ N, cs.findSome? (Call.inputEntry N) = none :=
        fun N => inputEntry_none_of_all cs N h4
      simp only [inputPart, Prod.mk.injEq] at h1
      obtain ⟨h1, h2, h3⟩ := h1
      subst h1 h2 h3
      cases c <;> simp [Call.isInput] at hc
      · refine ⟨⟨GoMap.empty⟩, rfl, ?_⟩
        intro N
        simp [findSome_append_singleton, Call.inputEntry, h5, GoMap.empty]
      · rename_i name f
        refine ⟨⟨GoMap.insert GoMap.empty name f⟩, rfl, ?_⟩
        intro N
        simp [findSome_append_singleton, Call.inputEntry, h5, GoMap.empty, GoMap.insert, eq_comm]
      · rename_i name
        refine ⟨⟨GoMap.empty⟩, rfl, ?_⟩
        intro N
        simp [findSome_append_singleton, Call.inputEntry, h5, GoMap.empty]
    · simp only [inputPart, Prod.mk.injEq] at h1
      obtain ⟨h1, h2, h3⟩ := h1
      subst h1 h2 h3
      cases c <;> simp [Call.isInput] at hc
      · refine ⟨m, rfl, ?_⟩
        intro N
        simp [findSome_append_singleton, Call.inputEntry, h4]
      · rename_i name f
        cases hm : m.Registry name with
        | none =>
          refine ⟨⟨GoMap.insert m.Registry name f⟩, ?_, ?_⟩
          · simp [Call.step, registerInput, GetInputManager, deref, inputPart,
              InputManager.Register, hm]
          · intro N
            rw [findSome_append_singleton, ← h4 N, Call.inputEntry]
            by_cases hN : name = N
            · subst hN
              simp [GoMap.insert, hm]
            · have hN' : ¬ N = name := fun h => hN h.symm
              simp [GoMap.insert, hN, hN']
        | some f0 =>
          refine ⟨m, ?_, ?_⟩
          · simp [Call.step, registerInput, GetInputManager, deref, inputPart,
              InputManager.Register, hm]
          · intro N
            rw [findSome_append_singleton, ← h4 N, Call.inputEntry]
            by_cases hN : name = N
            · subst hN
              simp [hm]
            · simp [hN]
      · rename_i name
        refine ⟨m, ?_, ?_⟩
        · simp [Call.step, getInput, GetInputManager, deref, inputPart, InputManager.GetPlugin]
          cases m.Registry name <;> rfl
        · intro N
          simp [findSome_append_singleton, Call.inputEntry, h4]

theorem inputInv_run (cs : List (Call W Input Processor Output Exporter)) (w0 : W) :
    InputInv cs (inputPart (run cs (Globals.start, w0)).1) := by
  induction cs using List.reverseRecOn with
  | nil => left; exact ⟨rfl, by simp⟩
  | append_singleton cs c ih =>
    rw [run_append_singleton]
    exact inputInv_step cs c _ ih

theorem input_singleton :
    IsSingleton "input" (@GetInputManager W Input Processor Output Exporter)
      (@getInput W Input Processor Output Exporter) Call.isInput Call.inputEntry := by
  refine ⟨⟨0, ?_⟩, ?_, ?_, ?_⟩
  · intro cs w0
    have h := inputInv_run cs w0
    generalize (run cs (Globals.start, w0)).1 = g at h
    obtain ⟨ims, pms, oms, ems, im, io, pm, po, om, oo, em, eo⟩ := g
    rcases h with ⟨h1, _⟩ | ⟨m, h1, _⟩ <;>
      · simp only [inputPart, Prod.mk.injEq] at h1
        obtain ⟨h1, h2, h3⟩ := h1
        subst h1 h2 h3
        rfl
  · intro cs w0 hcs
    have h := inputInv_run cs w0
    generalize (run cs (Globals.start, w0)).1 = g at h
    obtain ⟨ims, pms, oms, ems, im, io, pm, po, om, oo, em, eo⟩ := g
    rcases h with ⟨_, h4⟩ | ⟨m, h1, _⟩
    · obtain ⟨c, hc, hc'⟩ := hcs
      rw [h4 c hc] at hc'
      cases hc'
    · simp only [inputPart, Prod.mk.injEq] at h1
      obtain ⟨h1, h2, h3⟩ := h1
      subst h1 h2 h3
      rfl
  · intro cs w0 N w
    have h := inputInv_run cs w0
    generalize (run cs (Globals.start, w0)).1 = g at h
    obtain ⟨ims, pms, oms, ems, im, io, pm, po, om, oo, em, eo⟩ := g
    rcases h with ⟨h1, h4⟩ | ⟨m, h1, h4⟩
    · simp only [inputPart, Prod.mk.injEq] at h1
      obtain ⟨h1, h2, h3⟩ := h1
      subst h1 h2 h3
      rw [inputEntry_none_of_all cs N h4]
      rfl
    · simp only [inputPart, Prod.mk.injEq] at h1
      obtain ⟨h1, h2, h3⟩ := h1
      subst h1 h2 h3
      rw [← h4 N]
      cases hm : m.Registry N <;>
        simp [getInput, GetInputManager, deref, InputManager.GetPlugin, served, hm]
  · intro c hc N
    exact inputEntry_of_not_isInput c N hc

theorem processorPart_step (c : Call W Input Processor Output Exporter)
    (s : Globals W Input Processor Output Exporter × W) (hc : c.isProcessor = false) :
    processorPart (c.step s).1 = processorPart s.1 := by
  cases c <;> simp only [Call.isProcessor, Bool.true_eq_false] at hc <;>
    simp only [Call.step, GetInputManager, GetProcessorManager, GetOutputManager,
      GetExporterManager, registerInput, registerProcessor, registerOutput, registerExporter,
      getInput, getProcessor, getOutput, getExporter, processorPart] <;>
    (repeat' split) <;> rfl

theorem processorEntry_of_not_isProcessor (c : Call W Input Processor Output Exporter) (N : String)
    (hc : c.isProcessor = false) : c.processorEntry N = none := by
  cases c <;> simp [Call.isProcessor] at hc <;> rfl

theorem processorEntry_none_of_all (cs : List (Call W Input Processor Output Exporter)) (N : String)
    (h : ∀ c ∈ cs, c.isProcessor = false) : cs.findSome? (Call.processorEntry N) = none := by
  rw [List.findSome?_eq_none_iff]
  intro c hc
  exact processorEntry_of_not_isProcessor c N (h c hc)

theorem processorInv_step (cs : List (Call W Input Processor Output Exporter))
    (c : Call W Input Processor Output Exporter)
    (s : Globals W Input Processor Output Exporter × W)
    (ih : ProcessorInv cs (processorPart s.1)) :
    ProcessorInv (cs ++ [c]) (processorPart (c.step s).1) := by
  cases hc : c.isProcessor with
  | false =>
    rw [processorPart_step c s hc]
    rcases ih with ⟨h1, h4⟩ | ⟨m, h1, h4⟩
    · left
      refine ⟨h1, ?_⟩
      intro c' hc'
      rcases List.mem_append.1 hc' with h | h
      · exact h4 c' h
      · rw [List.mem_singleton.1 h]
        exact hc
    · right
      refine ⟨m, h1, ?_⟩
      intro N
      rw [h4 N, findSome_append_singleton, processorEntry_of_not_isProcessor c N hc]
      simp
  | true =>
    right
    obtain ⟨⟨ims, pms, oms, ems, im, io, pm, po, om, oo, em, eo⟩, w⟩ := s
    rcases ih with ⟨h1, h4⟩ | ⟨m, h1, h4⟩
    · have h5 : ∀ N, cs.findSome? (Call.processorEntry N) = none :=
        fun N => processorEntry_none_of_all cs N h4
      simp only [processorPart, Prod.mk.injEq] at h1
      obtain ⟨h1, h2, h3⟩ := h1
      subst h1 h2 h3
      cases c <;> simp [Call.isProcessor] at hc
      · refine ⟨⟨GoMap.empty⟩, rfl, ?_⟩
        intro N
        simp [findSome_append_singleton, Call.processorEntry, h5, GoMap.empty]
      · rename_i name f
        refine ⟨⟨GoMap.insert GoMap.empty name f⟩, rfl, ?_⟩
        intro N
        simp [findSome_append_singleton, Call.processorEntry, h5, GoMap.empty, GoMap.insert, eq_comm]
      · rename_i name
        refine ⟨⟨GoMap.empty⟩, rfl, ?_⟩
        intro N
        simp [findSome_append_singleton, Call.processorEntry, h5, GoMap.empty]
    · simp only [processorPart, Prod.mk.injEq] at h1
      obtain ⟨h1, h2, h3⟩ := h1
      subst h1 h2 h3
      cases c <;> simp [Call.isProcessor] at hc
      · refine ⟨m, rfl, ?_⟩
        intro N
        simp [findSome_append_singleton, Call.processorEntry, h4]
      · rename_i name f
        cases hm : m.Registry name with
        | none =>
          refine ⟨⟨GoMap.insert m.Registry name f⟩, ?_, ?_⟩
          · simp [Call.step, registerProcessor, GetProcessorManager, deref, processorPart,
              ProcessorManager.Register, hm]
          · intro N
            rw [findSome_append_singleton, ← h4 N, Call.processorEntry]
            by_cases hN : name = N
            · subst hN
              simp [GoMap.insert, hm]
            · have hN' : ¬ N = name := fun h => hN h.symm
              simp [GoMap.insert, hN, hN']
        | some f0 =>
          refine ⟨m, ?_, ?_⟩
          · simp [Call.step, registerProcessor, GetProcessorManager, deref, processorPart,
              ProcessorManager.Register, hm]
          · intro N
            rw [findSome_append_singleton, ← h4 N, Call.processorEntry]
            by_cases hN : name = N
            · subst hN
              simp [hm]
            · simp [hN]
      · rename_i name
        refine ⟨m, ?_, ?_⟩
        · simp [Call.step, getProcessor, GetProcessorManager, deref, processorPart, ProcessorManager.GetPlugin]
          cases m.Registry name <;> rfl
        · intro N
          simp [findSome_append_singleton, Call.processorEntry, h4]

theorem processorInv_run (cs : List (Call W Input Processor Output Exporter)) (w0 : W) :
    ProcessorInv cs (processorPart (run cs (Globals.start, w0)).1) := by
  induction cs using List.reverseRecOn with
  | nil => left; exact ⟨rfl, by simp⟩
  | append_singleton cs c ih =>
    rw [run_append_singleton]
    exact processorInv_step cs c _ ih

theorem processor_singleton :
    IsSingleton "processor" (@GetProcessorManager W Input Processor Output Exporter)
      (@getProcessor W Input Processor Output Exporter) Call.isProcessor Call.processorEntry := by
  refine ⟨⟨0, ?_⟩, ?_, ?_, ?_⟩
  · intro cs w0
    have h := processorInv_run cs w0
    generalize (run cs (Globals.start, w0)).1 = g at h
    obtain ⟨ims, pms, oms, ems, im, io, pm, po, om, oo, em, eo⟩ := g
    rcases h with ⟨h1, _⟩ | ⟨m, h1, _⟩ <;>
      · simp only [processorPart, Prod.mk.injEq] at h1
        obtain ⟨h1, h2, h3⟩ := h1
        subst h1 h2 h3
        rfl
  · intro cs w0 hcs
    have h := processorInv_run cs w0
    generalize (run cs (Globals.start, w0)).1 = g at h
    obtain ⟨ims, pms, oms, ems, im, io, pm, po, om, oo, em, eo⟩ := g
    rcases h with ⟨_, h4⟩ | ⟨m, h1, _⟩
    · obtain ⟨c, hc, hc'⟩ := hcs
      rw [h4 c hc] at hc'
      cases hc'
    · simp only [processorPart, Prod.mk.injEq] at h1
      obtain ⟨h1, h2, h3⟩ := h1
      subst h1 h2 h3
      rfl
  · intro cs w0 N w
    have h := processorInv_run cs w0
    generalize (run cs (Globals.start, w0)).1 = g at h
    obtain ⟨ims, pms, oms, ems, im, io, pm, po, om, oo, em, eo⟩ := g
    rcases h with ⟨h1, h4⟩ | ⟨m, h1, h4⟩
    · simp only [processorPart, Prod.mk.injEq] at h1
      obtain ⟨h1, h2, h3⟩ := h1
      subst h1 h2 h3
      rw [processorEntry_none_of_all cs N h4]
      rfl
    · simp only [processorPart, Prod.mk.injEq] at h1
      obtain ⟨h1, h2, h3⟩ := h1
      subst h1 h2 h3
      rw [← h4 N]
      cases hm : m.Registry N <;>
        simp [getProcessor, GetProcessorManager, deref, ProcessorManager.GetPlugin, served, hm]
  · intro c hc N
    exact processorEntry_of_not_isProcessor c N hc

theorem outputPart_step (c : Call W Input Processor Output Exporter)
    (s : Globals W Input Processor Output Exporter × W) (hc : c.isOutput = false) :
    outputPart (c.step s).1 = outputPart s.1 := by
  cases c <;> simp only [Call.isOutput, Bool.true_eq_false] at hc <;>
    simp only [Call.step, GetInputManager, GetProcessorManager, GetOutputManager,
      GetExporterManager, registerInput, registerProcessor, registerOutput, registerExporter,
      getInput, getProcessor, getOutput, getExporter, outputPart] <;>
    (repeat' split) <;> rfl

theorem outputEntry_of_not_isOutput (c : Call W Input Processor Output Exporter) (N : String)
    (hc : c.isOutput = false) : c.outputEntry N = none := by
  cases c <;> simp [Call.isOutput] at hc <;> rfl

theorem outputEntry_none_of_all (cs : List (Call W Input Processor Output Exporter)) (N : String)
    (h : ∀ c ∈ cs, c.isOutput = false) : cs.findSome? (Call.outputEntry N) = none := by
  rw [List.findSome?_eq_none_iff]
  intro c hc
  exact outputEntry_of_not_isOutput c N (h c hc)

theorem outputInv_step (cs : List (Call W Input Processor Output Exporter))
    (c : Call W Input Processor Output Exporter)
    (s : Globals W Input Processor Output Exporter × W)
    (ih : OutputInv cs (outputPart s.1)) :
    OutputInv (cs ++ [c]) (outputPart (c.step s).1) := by
  cases hc : c.isOutput with
  | false =>
    rw [outputPart_step c s hc]
    rcases ih with ⟨h1, h4⟩ | ⟨m, h1, h4⟩
    · left
      refine ⟨h1, ?_⟩
      intro c' hc'
      rcases List.mem_append.1 hc' with h | h
      · exact h4 c' h
      · rw [List.mem_singleton.1 h]
        exact hc
    · right
      refine ⟨m, h1, ?_⟩
      intro N
      rw [h4 N, findSome_append_singleton, outputEntry_of_not_isOutput c N hc]
      simp
  | true =>
    right
    obtain ⟨⟨ims, pms, oms, ems, im, io, pm, po, om, oo, em, eo⟩, w⟩ := s
    rcases ih with ⟨h1, h4⟩ | ⟨m, h1, h4⟩
    · have h5 : ∀ N, cs.findSome? (Call.outputEntry N) = none :=
        fun N => outputEntry_none_of_all cs N h4
      simp only [outputPart, Prod.mk.injEq] at h1
      obtain ⟨h1, h2, h3⟩ := h1
      subst h1 h2 h3
      cases c <;> simp [Call.isOutput] at hc
      · refine ⟨⟨GoMap.empty⟩, rfl, ?_⟩
        intro N
        simp [findSome_append_singleton, Call.outputEntry, h5, GoMap.empty]
      · rename_i name f
        refine ⟨⟨GoMap.insert GoMap.empty name f⟩, rfl, ?_⟩
        intro N
        simp [findSome_append_singleton, Call.outputEntry, h5, GoMap.empty, GoMap.insert, eq_comm]
      · rename_i name
        refine ⟨⟨GoMap.empty⟩, rfl, ?_⟩
        intro N
        simp [findSome_append_singleton, Call.outputEntry, h5, GoMap.empty]
    · simp only [outputPart, Prod.mk.injEq] at h1
      obtain ⟨h1, h2, h3⟩ := h1
      subst h1 h2 h3
      cases c <;> simp [Call.isOutput] at hc
      · refine ⟨m, rfl, ?_⟩
        intro N
        simp [findSome_append_singleton, Call.outputEntry, h4]
      · rename_i name f
        cases hm : m.Registry name with
        | none =>
          refine ⟨⟨GoMap.insert m.Registry name f⟩, ?_, ?_⟩
          · simp [Call.step, registerOutput, GetOutputManager, deref, outputPart,
              OutputManager.Register, hm]
          · intro N
            rw [findSome_append_singleton, ← h4 N, Call.outputEntry]
            by_cases hN : name = N
            · subst hN
              simp [GoMap.insert, hm]
            · have hN' : ¬ N = name := fun h => hN h.symm
              simp [GoMap.insert, hN, hN']
        | some f0 =>
          refine ⟨m, ?_, ?_⟩
          · simp [Call.step, registerOutput, GetOutputManager, deref, outputPart,
              OutputManager.Register, hm]
          · intro N
            rw [findSome_append_singleton, ← h4 N, Call.outputEntry]
            by_cases hN : name = N
            · subst hN
              simp [hm]
            · simp [hN]
      · rename_i name
        refine ⟨m, ?_, ?_⟩
        · simp [Call.step, getOutput, GetOutputManager, deref, outputPart, OutputManager.GetPlugin]
          cases m.Registry name <;> rfl
        · intro N
          simp [findSome_append_singleton, Call.outputEntry, h4]

theorem outputInv_run (cs : List (Call W Input Processor Output Exporter)) (w0 : W) :
    OutputInv cs (outputPart (run cs (Globals.start, w0)).1) := by
  induction cs using List.reverseRecOn with
  | nil => left; exact ⟨rfl, by simp⟩
  | append_singleton cs c ih =>
    rw [run_append_singleton]
    exact outputInv_step cs c _ ih

theorem output_singleton :
    IsSingleton "output" (@GetOutputManager W Input Processor Output Exporter)
      (@getOutput W Input Processor Output Exporter) Call.isOutput Call.outputEntry := by
  refine ⟨⟨0, ?_⟩, ?_, ?_, ?_⟩
  · intro cs w0
    have h := outputInv_run cs w0
    generalize (run cs (Globals.start, w0)).1 = g at h
    obtain ⟨ims, pms, oms, ems, im, io, pm, po, om, oo, em, eo⟩ := g
    rcases h with ⟨h1, _⟩ | ⟨m, h1, _⟩ <;>
      · simp only [outputPart, Prod.mk.injEq] at h1
        obtain ⟨h1, h2, h3⟩ := h1
        subst h1 h2 h3
        rfl
  · intro cs w0 hcs
    have h := outputInv_run cs w0
    generalize (run cs (Globals.start, w0)).1 = g at h
    obtain ⟨ims, pms, oms, ems, im, io, pm, po, om, oo, em, eo⟩ := g
    rcases h with ⟨_, h4⟩ | ⟨m, h1, _⟩
    · obtain ⟨c, hc, hc'⟩ := hcs
      rw [h4 c hc] at hc'
      cases hc'
    · simp only [outputPart, Prod.mk.injEq] at h1
      obtain ⟨h1, h2, h3⟩ := h1
      subst h1 h2 h3
      rfl
  · intro cs w0 N w
    have h := outputInv_run cs w0
    generalize (run cs (Globals.start, w0)).1 = g at h
    obtain ⟨ims, pms, oms, ems, im, io, pm, po, om, oo, em, eo⟩ := g
    rcases h with ⟨h1, h4⟩ | ⟨m, h1, h4⟩
    · simp only [outputPart, Prod.mk.injEq] at h1
      obtain ⟨h1, h2, h3⟩ := h1
      subst h1 h2 h3
      rw [outputEntry_none_of_all cs N h4]
      rfl
    · simp only [outputPart, Prod.mk.injEq] at h1
      obtain ⟨h1, h2, h3⟩ := h1
      subst h1 h2 h3
      rw [← h4 N]
      cases hm : m.Registry N <;>
        simp [getOutput, GetOutputManager, deref, OutputManager.GetPlugin, served, hm]
  · intro c hc N
    exact outputEntry_of_not_isOutput c N hc

theorem exporterPart_step (c : Call W Input Processor Output Exporter)
    (s : Globals W Input Processor Output Exporter × W) (hc : c.isExporter = false) :
    exporterPart (c.step s).1 = exporterPart s.1 := by
  cases c <;> simp only [Call.isExporter, Bool.true_eq_false] at hc <;>
    simp only [Call.step, GetInputManager, GetProcessorManager, GetOutputManager,
      GetExporterManager, registerInput, registerProcessor, registerOutput, registerExporter,
      getInput, getProcessor, getOutput, getExporter, exporterPart] <;>
    (repeat' split) <;> rfl

theorem exporterEntry_of_not_isExporter (c : Call W Input Processor Output Exporter) (N : String)
    (hc : c.isExporter = false) : c.exporterEntry N = none := by
  cases c <;> simp [Call.isExporter] at hc <;> rfl

theorem exporterEntry_none_of_all (cs : List (Call W Input Processor Output Exporter)) (N : String)
    (h : ∀ c ∈ cs, c.isExporter = false) : cs.findSome? (Call.exporterEntry N) = none := by
  rw [List.findSome?_eq_none_iff]
  intro c hc
  exact exporterEntry_of_not_isExporter c N (h c hc)

theorem exporterInv_step (cs : List (Call W Input Processor Output Exporter))
    (c : Call W Input Processor Output Exporter)
    (s : Globals W Input Processor Output Exporter × W)
    (ih : ExporterInv cs (exporterPart s.1)) :
    ExporterInv (cs ++ [c]) (exporterPart (c.step s).1) := by
  cases hc : c.isExporter with
  | false =>
    rw [exporterPart_step c s hc]
    rcases ih with ⟨h1, h4⟩ | ⟨m, h1, h4⟩
    · left
      refine ⟨h1, ?_⟩
      intro c' hc'
      rcases List.mem_append.1 hc' with h | h
      · exact h4 c' h
      · rw [List.mem_singleton.1 h]
        exact hc
    · right
      refine ⟨m, h1, ?_⟩
      intro N
      rw [h4 N, findSome_append_singleton, exporterEntry_of_not_isExporter c N hc]
      simp
  | true =>
    right
    obtain ⟨⟨ims, pms, oms, ems, im, io, pm, po, om, oo, em, eo⟩, w⟩ := s
    rcases ih with ⟨h1, h4⟩ | ⟨m, h1, h4⟩
    · have h5 : ∀ N, cs.findSome? (Call.exporterEntry N) = none :=
        fun N => exporterEntry_none_of_all cs N h4
      simp only [exporterPart, Prod.mk.injEq] at h1
      obtain ⟨h1, h2, h3⟩ := h1
      subst h1 h2 h3
      cases c <;> simp [Call.isExporter] at hc
      · refine ⟨⟨GoMap.empty⟩, rfl, ?_⟩
        intro N
        simp [findSome_append_singleton, Call.exporterEntry, h5, GoMap.empty]
      · rename_i name f
        refine ⟨⟨GoMap.insert GoMap.empty name f⟩, rfl, ?_⟩
        intro N
        simp [findSome_append_singleton, Call.exporterEntry, h5, GoMap.empty, GoMap.insert, eq_comm]
      · rename_i name
        refine ⟨⟨GoMap.empty⟩, rfl, ?_⟩
        intro N
        simp [findSome_append_singleton, Call.exporterEntry, h5, GoMap.empty]
    · simp only [exporterPart, Prod.mk.injEq] at h1
      obtain ⟨h1, h2, h3⟩ := h1
      subst h1 h2 h3
      cases c <;> simp [Call.isExporter] at hc
      · refine ⟨m, rfl, ?_⟩
        intro N
        simp [findSome_append_singleton, Call.exporterEntry, h4]
      · rename_i name f
        cases hm : m.Registry name with
        | none =>
          refine ⟨⟨GoMap.insert m.Registry name f⟩, ?_, ?_⟩
          · simp [Call.step, registerExporter, GetExporterManager, deref, exporterPart,
              ExporterManager.Register, hm]
          · intro N
            rw [findSome_append_singleton, ← h4 N, Call.exporterEntry]
            by_cases hN : name = N
            · subst hN
              simp [GoMap.insert, hm]
            · have hN' : ¬ N = name := fun h => hN h.symm
              simp [GoMap.insert, hN, hN']
        | some f0 =>
          refine ⟨m, ?_, ?_⟩
          · simp [Call.step, registerExporter, GetExporterManager, deref, exporterPart,
              ExporterManager.Register, hm]
          · intro N
            rw [findSome_append_singleton, ← h4 N, Call.exporterEntry]
            by_cases hN : name = N
            · subst hN
              simp [hm]
            · simp [hN]
      · rename_i name
        refine ⟨m, ?_, ?_⟩
        · simp [Call.step, getExporter, GetExporterManager, deref, exporterPart, ExporterManager.GetPlugin]
          cases m.Registry name <;> rfl
        · intro N
          simp [findSome_append_singleton, Call.exporterEntry, h4]

theorem exporterInv_run (cs : List (Call W Input Processor Output Exporter)) (w0 : W) :
    ExporterInv cs (exporterPart (run cs (Globals.start, w0)).1) := by
  induction cs using List.reverseRecOn with
  | nil => left; exact ⟨rfl, by simp⟩
  | append_singleton cs c ih =>
    rw [run_append_singleton]
    exact exporterInv_step cs c _ ih

theorem exporter_singleton :
    IsSingleton "exporter" (@GetExporterManager W Input Processor Output Exporter)
      (@getExporter W Input Processor Output Exporter) Call.isExporter Call.exporterEntry := by
  refine ⟨⟨0, ?_⟩, ?_, ?_, ?_⟩
  · intro cs w0
    have h := exporterInv_run cs w0
    generalize (run cs (Globals.start, w0)).1 = g at h
    obtain ⟨ims, pms, oms, ems, im, io, pm, po, om, oo, em, eo⟩ := g
    rcases h with ⟨h1, _⟩ | ⟨m, h1, _⟩ <;>
      · simp only [exporterPart, Prod.mk.injEq] at h1
        obtain ⟨h1, h2, h3⟩ := h1
        subst h1 h2 h3
        rfl
  · intro cs w0 hcs
    have h := exporterInv_run cs w0
    generalize (run cs (Globals.start, w0)).1 = g at h
    obtain ⟨ims, pms, oms, ems, im, io, pm, po, om, oo, em, eo⟩ := g
    rcases h with ⟨_, h4⟩ | ⟨m, h1, _⟩
    · obtain ⟨c, hc, hc'⟩ := hcs
      rw [h4 c hc] at hc'
      cases hc'
    · simp only [exporterPart, Prod.mk.injEq] at h1
      obtain ⟨h1, h2, h3⟩ := h1
      subst h1 h2 h3
      rfl
  · intro cs w0 N w
    have h := exporterInv_run cs w0
    generalize (run cs (Globals.start, w0)).1 = g at h
    obtain ⟨ims, pms, oms, ems, im, io, pm, po, om, oo, em, eo⟩ := g
    rcases h with ⟨h1, h4⟩ | ⟨m, h1, h4⟩
    · simp only [exporterPart, Prod.mk.injEq] at h1
      obtain ⟨h1, h2, h3⟩ := h1
      subst h1 h2 h3
      rw [exporterEntry_none_of_all cs N h4]
      rfl
    · simp only [exporterPart, Prod.mk.injEq] at h1
      obtain ⟨h1, h2, h3⟩ := h1
      subst h1 h2 h3
      rw [← h4 N]
      cases hm : m.Registry N <;>
        simp [getExporter, GetExporterManager, deref, ExporterManager.GetPlugin, served, hm]
  · intro c hc N
    exact exporterEntry_of_not_isExporter c N hc

/-- C10. For each of the four kinds, in every sequence of accessor calls, registrations and
lookups made from process start: the accessor returns the same manager (the same address) at
every call; once a call of the kind has been made the accessor leaves the package state, the
manager and its registry included, as it is; a lookup through the accessor finds exactly the
names registered through the accessor of the same kind earlier in the sequence, each with the
factory of its first registration, and finds nothing at first; the calls of the other three
kinds register nothing with this kind. -/
theorem managers_are_singletons :
    IsSingleton "input" (@GetInputManager W Input Processor Output Exporter)
      (@getInput W Input Processor Output Exporter) Call.isInput Call.inputEntry ∧
    IsSingleton "processor" (@GetProcessorManager W Input Processor Output Exporter)
      (@getProcessor W Input Processor Output Exporter) Call.isProcessor Call.processorEntry ∧
    IsSingleton "output" (@GetOutputManager W Input Processor Output Exporter)
      (@getOutput W Input Processor Output Exporter) Call.isOutput Call.outputEntry ∧
    IsSingleton "exporter" (@GetExporterManager W Input Processor Output Exporter)
      (@getExporter W Input Processor Output Exporter) Call.isExporter Call.exporterEntry :=
  ⟨input_singleton, processor_singleton, output_singleton, exporter_singleton⟩

/-- C10 after the example calls: the Input accessor still returns its first manager and leaves
the package state alone, Input "cpu" is served by "F1", Processor "cpu" does not exist. -/
theorem managers_are_singletons_witness :
    (GetInputManager (run exampleCalls (Globals.start, 0)).1).2
      = (run exampleCalls (Globals.start, 0)).1 ∧
    (getInput "cpu" (run exampleCalls (Globals.start, 0)).1 7).1
      = .ret (some ("F1", 7), none) ∧
    (getProcessor "cpu" (run exampleCalls (Globals.start, 0)).1 7).1
      = .ret (none, some "processor plugin cpu not exist") := by
  have h := @managers_are_singletons Nat (String × Nat) (String × Nat) Unit Unit
  refine ⟨h.1.2.1 exampleCalls 0 ⟨.GetInputManager, by simp [exampleCalls], rfl⟩, ?_, ?_⟩
  · have h3 := h.1.2.2.1 exampleCalls 0 "cpu" 7
    have h4 : (getInput "cpu" (run exampleCalls (Globals.start, 0)).1 7).1
        = (served "input" (exampleCalls.findSome? (Call.inputEntry "cpu")) "cpu" 7).1 := by
      rw [← h3]
    rw [h4]
    rfl
  · have h3 := h.2.1.2.2.1 exampleCalls 0 "cpu" 7
    have h4 : (getProcessor "cpu" (run exampleCalls (Globals.start, 0)).1 7).1
        = (served "processor" (exampleCalls.findSome? (Call.processorEntry "cpu")) "cpu" 7).1 := by
      rw [← h3]
    rw [h4]
    rfl

end plugins

namespace mysql

theorem foldl_enabledScrapers (libName : CollectorUnit → String) (ScraperFlags : GoMap Bool)
    (order : List (Scraper × Bool)) (acc : List Scraper) :
    order.foldl
      (fun enabledScrapers entry =>
        if ((ScraperFlags (entry.1.Name libName)).isSome &&
              (ScraperFlags (entry.1.Name libName)).getD false) ||
            (!(ScraperFlags (entry.1.Name libName)).isSome && entry.2) then
          enabledScrapers ++ [ignoreVersion entry.1]
        else
          enabledScrapers)
      acc
      = acc ++ ((order.filter (selected libName ScraperFlags)).map
          (fun entry => ignoreVersion entry.1)) := by
  induction order generalizing acc with
  | nil => simp
  | cons e es ih =>
    simp only [List.foldl_cons, ih, List.filter_cons, selected]
    split <;> simp

theorem enabledScrapersOf_eq (libName : CollectorUnit → String) (ScraperFlags : GoMap Bool)
    (order : List (Scraper × Bool)) :
    enabledScrapersOf libName ScraperFlags order
      = (order.filter (selected libName ScraperFlags)).map (fun entry => ignoreVersion entry.1) := by
  have h := foldl_enabledScrapers libName ScraperFlags order []
  simpa [enabledScrapersOf] using h

theorem scrapers_keys_nodup : (scrapers.map Prod.fst).Nodup := by
  decide

theorem ignoreVersion_injective : Function.Injective ignoreVersion := by
  intro a b h
  simpa [ignoreVersion] using h

theorem selected_iff (libName : CollectorUnit → String) (ScraperFlags : GoMap Bool)
    (u : Scraper) (d : Bool) :
    selected libName ScraperFlags (u, d) = true ↔
      (ScraperFlags (u.Name libName) = some true ∨
        (ScraperFlags (u.Name libName) = none ∧ d = true)) := by
  unfold selected
  cases h : ScraperFlags (u.Name libName) <;> simp

/-- C4. Whatever order the range over `scrapers` takes and whatever configuration record the
decoding yields: a unit of the table is in the active set, under its version wrapper, exactly
when its name is flagged true or is not flagged and the table default is true; the active set
has no repetition and holds nothing but wrapped table units, whose version reads 0; and the
flags `{"global_status": false}` exclude the global-status unit (table default true). -/
theorem init_enabledScrapers {RawConfig Bytes : Type}
    (yamlMarshal : RawConfig → Except String Bytes)
    (yamlUnmarshal : Bytes → Except String MysqldConfig)
    (libName : CollectorUnit → String) (libVersion : CollectorUnit → ℚ)
    (order : List (Scraper × Bool))
    (m : MysqldExporter) (config : RawConfig) (configBytes : Bytes) (pluginConfig : MysqldConfig)
    (horder : order.Perm scrapers)
    (hencode : yamlMarshal config = .ok configBytes)
    (hdecode : yamlUnmarshal configBytes = .ok pluginConfig) :
    (∀ (u : Scraper) (d : Bool), (u, d) ∈ scrapers →
      (ignoreVersion u ∈
          (MysqldExporter.Init yamlMarshal yamlUnmarshal libName order m config).2.enabledScrapers
        ↔ (pluginConfig.ScraperFlags (u.Name libName) = some true ∨
            (pluginConfig.ScraperFlags (u.Name libName) = none ∧ d = true)))) ∧
    (MysqldExporter.Init yamlMarshal yamlUnmarshal libName order m config).2.enabledScrapers.Nodup ∧
    (∀ s ∈ (MysqldExporter.Init yamlMarshal yamlUnmarshal libName order m config).2.enabledScrapers,
      s.Version libVersion = 0 ∧ ∃ u d, (u, d) ∈ scrapers ∧ s = ignoreVersion u) ∧
    (libName .ScrapeGlobalStatus = "global_status" →
      pluginConfig.ScraperFlags = GoMap.insert GoMap.empty "global_status" false →
      ((Scraper.unit .ScrapeGlobalStatus, true) ∈ scrapers ∧
        ignoreVersion (.unit .ScrapeGlobalStatus) ∉
          (MysqldExporter.Init yamlMarshal yamlUnmarshal libName order m
            config).2.enabledScrapers)) := by
  have hE : (MysqldExporter.Init yamlMarshal yamlUnmarshal libName order m config).2.enabledScrapers
      = (order.filter (selected libName pluginConfig.ScraperFlags)).map
          (fun entry => ignoreVersion entry.1) := by
    simp only [MysqldExporter.Init, hencode, hdecode, enabledScrapersOf_eq]
    split <;> rfl
  have hkeys : (order.map Prod.fst).Nodup :=
    ((horder.map Prod.fst).nodup_iff).2 scrapers_keys_nodup
  have hmem : ∀ (u : Scraper) (d : Bool), (u, d) ∈ scrapers →
      (ignoreVersion u ∈
          (MysqldExporter.Init yamlMarshal yamlUnmarshal libName order m config).2.enabledScrapers
        ↔ (pluginConfig.ScraperFlags (u.Name libName) = some true ∨
            (pluginConfig.ScraperFlags (u.Name libName) = none ∧ d = true))) := by
    intro u d hud
    have hud1 : (u, d) ∈ order := horder.mem_iff.2 hud
    rw [hE, ← selected_iff]
    constructor
    · intro h
      obtain ⟨e, he, heq⟩ := List.mem_map.1 h
      obtain ⟨he1, he2⟩ := List.mem_filter.1 he
      have hfst : e.1 = u := ignoreVersion_injective heq
      have : e = (u, d) := List.inj_on_of_nodup_map hkeys he1 hud1 hfst
      rw [← this]
      exact he2
    · intro h
      exact List.mem_map.2 ⟨(u, d), List.mem_filter.2 ⟨hud1, h⟩, rfl⟩
  refine ⟨hmem, ?_, ?_, ?_⟩
  · rw [hE]
    have h1 : ((order.filter (selected libName pluginConfig.ScraperFlags)).map Prod.fst).Nodup :=
      List.Nodup.sublist ((List.filter_sublist order).map Prod.fst) hkeys
    have h2 := List.Nodup.map ignoreVersion_injective h1
    simpa [List.map_map, Function.comp_def] using h2
  · intro s hs
    rw [hE] at hs
    obtain ⟨e, he, heq⟩ := List.mem_map.1 hs
    obtain ⟨he1, _⟩ := List.mem_filter.1 he
    refine ⟨by rw [← heq]; rfl, e.1, e.2, horder.mem_iff.1 he1, heq.symm⟩
  · intro hname hflags
    have hin : (Scraper.unit .ScrapeGlobalStatus, true) ∈ scrapers := by decide
    refine ⟨hin, ?_⟩
    rw [hmem _ _ hin]
    simp [Scraper.Name, hname, hflags, GoMap.insert]

/-- C4 on a fresh instance, the table order and the flags `{"global_status": false}`: the
global-status unit (default true) is left out, the global-variables unit (no flag, default true)
is in. -/
theorem init_enabledScrapers_witness :
    ignoreVersion (.unit .ScrapeGlobalStatus) ∉
      (MysqldExporter.Init (fun c : MysqldConfig => Except.ok c) Except.ok exampleNames scrapers
        MysqldExporter.zero exampleConfig).2.enabledScrapers ∧
    ignoreVersion (.unit .ScrapeGlobalVariables) ∈
      (MysqldExporter.Init (fun c : MysqldConfig => Except.ok c) Except.ok exampleNames scrapers
        MysqldExporter.zero exampleConfig).2.enabledScrapers := by
  have h := init_enabledScrapers (fun c : MysqldConfig => Except.ok c) Except.ok exampleNames
    (fun _ => 0) scrapers MysqldExporter.zero exampleConfig exampleConfig exampleConfig
    (List.Perm.refl _) rfl rfl
  refine ⟨(h.2.2.2 rfl rfl).2, ?_⟩
  have hin : (Scraper.unit .ScrapeGlobalVariables, true) ∈ scrapers := by decide
  rw [h.1 _ _ hin]
  right
  exact ⟨by simp [exampleConfig, GoMap.insert, GoMap.empty, Scraper.Name, exampleNames], rfl⟩

theorem foldl_goAppend {MetricFamily Metric : Type}
    (ParseFromMetricFamily : MetricFamily → List Metric)
    (families : List MetricFamily) (metrics : Option (List Metric)) :
    (families.foldl
        (fun metrics metricFamily => goAppend metrics (ParseFromMetricFamily metricFamily))
        metrics).getD []
      = metrics.getD [] ++ (families.map ParseFromMetricFamily).flatten := by
  induction families generalizing metrics with
  | nil => simp
  | cons f fs ih =>
    simp only [List.foldl_cons, ih, List.map_cons, List.flatten_cons]
    cases metrics <;> cases hp : ParseFromMetricFamily f <;> simp [goAppend]

/-- C5. On an instance whose registry is set (Ready), for every answer of the gather call: if
the gather answers an error, `Collect` returns the nil list and that error under the prefix
"mysql exporter registry gather"; if it answers no error, `Collect` returns a nil error and a
list whose records are the concatenation, in family order, of `ParseFromMetricFamily` of each
family, so its length is the sum of the per-family counts. -/
theorem collect_flattens {MetricFamily Metric : Type}
    (Gather : Registry → List MetricFamily × Option String)
    (ParseFromMetricFamily : MetricFamily → List Metric)
    (m : MysqldExporter) (r : Registry) (hready : m.registry = some r) :
    (∀ err, (Gather r).2 = some err →
      m.Collect Gather ParseFromMetricFamily
        = .ret (none, some ("mysql exporter registry gather: " ++ err))) ∧
    ((Gather r).2 = none →
      ∃ metrics, m.Collect Gather ParseFromMetricFamily = .ret (metrics, none) ∧
        metrics.getD [] = ((Gather r).1.map ParseFromMetricFamily).flatten ∧
        (metrics.getD []).length
          = ((Gather r).1.map (fun f => (ParseFromMetricFamily f).length)).sum) := by
  constructor
  · intro err herr
    simp [MysqldExporter.Collect, hready, herr]
  · intro hok
    refine ⟨(Gather r).1.foldl
      (fun metrics metricFamily => goAppend metrics (ParseFromMetricFamily metricFamily)) none,
      by simp only [MysqldExporter.Collect, hready, hok], ?_, ?_⟩
    · simpa using foldl_goAppend ParseFromMetricFamily (Gather r).1 none
    · rw [foldl_goAppend]
      simp [List.length_flatten, List.map_map, Function.comp_def]

/-- C5 on the Ready example instance: the failing gather gives the nil list and the wrapped
error; the gather over the one registered collector gives its two samples. -/
theorem collect_flattens_witness :
    readyExample.Collect gatherFailing twoSamples
      = .ret (none, some "mysql exporter registry gather: connection refused") ∧
    readyExample.Collect gatherRegistered twoSamples = .ret (some [("", 0), ("", 1)], none) := by
  refine ⟨(collect_flattens gatherFailing twoSamples readyExample
      ⟨[{ dsn := "", scrapers := readyExample.enabledScrapers, logger := .logrus }]⟩ rfl).1
      "connection refused" rfl, ?_⟩
  rfl

/-- C6 fails on the code: on the fresh instance `Collect` does not return (nil dereference), and
after a successful `Init` and `Close` it returns the nil list with a nil error. -/
theorem collect_outside_ready_counterexample :
    MysqldExporter.zero.Collect gatherRegistered twoSamples = .panic plugins.nilDereference ∧
    ¬ ReportsError (MysqldExporter.zero.Collect gatherRegistered twoSamples) ∧
    readyExample.Close.1 = .ret none ∧
    readyExample.Close.2.Collect gatherRegistered twoSamples = .ret (none, none) ∧
    ¬ ReportsError (readyExample.Close.2.Collect gatherRegistered twoSamples) := by
  have h1 : MysqldExporter.zero.Collect gatherRegistered twoSamples
      = .panic plugins.nilDereference := rfl
  have h2 : readyExample.Close.2.Collect gatherRegistered twoSamples = .ret (none, none) := by
    decide
  refine ⟨h1, ?_, rfl, h2, ?_⟩
  · rintro ⟨err, herr⟩
    rw [h1] at herr
    cases herr
  · rintro ⟨err, herr⟩
    rw [h2] at herr
    cases herr

theorem init_ok_state {RawConfig Bytes : Type}
    (yamlMarshal : RawConfig → Except String Bytes)
    (yamlUnmarshal : Bytes → Except String MysqldConfig)
    (libName : CollectorUnit → String) (order : List (Scraper × Bool))
    (m : MysqldExporter) (config : RawConfig)
    (hinit : (MysqldExporter.Init yamlMarshal yamlUnmarshal libName order m config).1 = none) :
    ∃ c : Exporter,
      (MysqldExporter.Init yamlMarshal yamlUnmarshal libName order m config).2.collector = some c ∧
      (MysqldExporter.Init yamlMarshal yamlUnmarshal libName order m config).2.registry
        = some { collectors := [c] } := by
  unfold MysqldExporter.Init at hinit ⊢
  cases h1 : yamlMarshal config with
  | error e => simp [h1] at hinit
  | ok configBytes =>
    cases h2 : yamlUnmarshal configBytes with
    | error e => simp [h1, h2] at hinit
    | ok pluginConfig =>
      simp [h2, NewRegistry, Registry.Register]

/-- C6 as the code has it. The adapter keeps no lifecycle state and `Collect` tests none: on an
instance whose registry is unset (fresh, or `Init` failed before building it) `Collect` ends in
a nil dereference; after a successful `Init` followed by `Close` the registry is the emptied
one and `Collect` answers what the gather on it answers: an error exactly when that gather
errs, otherwise the flattened families with a nil error. -/
theorem collect_outside_ready {RawConfig Bytes MetricFamily Metric : Type}
    (yamlMarshal : RawConfig → Except String Bytes)
    (yamlUnmarshal : Bytes → Except String MysqldConfig)
    (libName : CollectorUnit → String) (order : List (Scraper × Bool))
    (Gather : Registry → List MetricFamily × Option String)
    (ParseFromMetricFamily : MetricFamily → List Metric)
    (m : MysqldExporter) (config : RawConfig) :
    (m.registry = none →
      m.Collect Gather ParseFromMetricFamily = .panic plugins.nilDereference) ∧
    ((MysqldExporter.Init yamlMarshal yamlUnmarshal libName order m config).1 = none →
      (MysqldExporter.Init yamlMarshal yamlUnmarshal libName order m config).2.Close.2.registry
        = some NewRegistry ∧
      (∀ err, (Gather NewRegistry).2 = some err →
        (MysqldExporter.Init yamlMarshal yamlUnmarshal libName order m
            config).2.Close.2.Collect Gather ParseFromMetricFamily
          = .ret (none, some ("mysql exporter registry gather: " ++ err))) ∧
      ((Gather NewRegistry).2 = none →
        ∃ metrics,
          (MysqldExporter.Init yamlMarshal yamlUnmarshal libName order m
              config).2.Close.2.Collect Gather ParseFromMetricFamily = .ret (metrics, none) ∧
          metrics.getD [] = ((Gather NewRegistry).1.map ParseFromMetricFamily).flatten)) := by
  constructor
  · intro h
    simp [MysqldExporter.Collect, h]
  · intro hinit
    obtain ⟨c, hc, hr⟩ := init_ok_state yamlMarshal yamlUnmarshal libName order m config hinit
    have hclosed :
        (MysqldExporter.Init yamlMarshal yamlUnmarshal libName order m config).2.Close.2.registry
          = some NewRegistry := by
      simp [MysqldExporter.Close, hc, hr, Registry.Unregister, NewRegistry]
    refine ⟨hclosed, ?_, ?_⟩
    · intro err herr
      simp [MysqldExporter.Collect, hclosed, herr]
    · intro hok
      refine ⟨(Gather NewRegistry).1.foldl
        (fun metrics metricFamily => goAppend metrics (ParseFromMetricFamily metricFamily)) none,
        by simp only [MysqldExporter.Collect, hclosed, hok], ?_⟩
      simpa using foldl_goAppend ParseFromMetricFamily (Gather NewRegistry).1 none

/-- C6 as the code has it, on the fresh instance and on the example instance after `Init` and
`Close`, with the gather over the registered collectors. -/
theorem collect_outside_ready_witness :
    MysqldExporter.zero.Collect gatherRegistered twoSamples = .panic plugins.nilDereference ∧
    (∃ metrics, readyExample.Close.2.Collect gatherRegistered twoSamples = .ret (metrics, none) ∧
      metrics.getD [] = ((gatherRegistered NewRegistry).1.map twoSamples).flatten) := by
  have h := collect_outside_ready (fun c : MysqldConfig => Except.ok c) Except.ok exampleNames
    scrapers gatherRegistered twoSamples MysqldExporter.zero exampleConfig
  exact ⟨h.1 rfl, (h.2 rfl).2.2 rfl⟩

/-- C7. On every instance on which `Init` succeeded: the first `Close` returns a nil error and
takes the wrapped collector, which `Init` had registered, out of the instance's registry; a
second `Close` returns a nil error too and leaves the instance exactly as the first left it. -/
theorem close_idempotent {RawConfig Bytes : Type}
    (yamlMarshal : RawConfig → Except String Bytes)
    (yamlUnmarshal : Bytes → Except String MysqldConfig)
    (libName : CollectorUnit → String) (order : List (Scraper × Bool))
    (m : MysqldExporter) (config : RawConfig)
    (hinit : (MysqldExporter.Init yamlMarshal yamlUnmarshal libName order m config).1 = none) :
    (MysqldExporter.Init yamlMarshal yamlUnmarshal libName order m config).2.Close.1
      = .ret none ∧
    (∃ c r0 r1,
      (MysqldExporter.Init yamlMarshal yamlUnmarshal libName order m config).2.collector
        = some c ∧
      (MysqldExporter.Init yamlMarshal yamlUnmarshal libName order m config).2.registry
        = some r0 ∧
      (MysqldExporter.Init yamlMarshal yamlUnmarshal libName order m config).2.Close.2.registry
        = some r1 ∧
      c ∈ r0.collectors ∧ c ∉ r1.collectors) ∧
    (MysqldExporter.Init yamlMarshal yamlUnmarshal libName order m config).2.Close.2.Close.1
      = .ret none ∧
    (MysqldExporter.Init yamlMarshal yamlUnmarshal libName order m config).2.Close.2.Close.2
      = (MysqldExporter.Init yamlMarshal yamlUnmarshal libName order m config).2.Close.2 := by
  obtain ⟨c, hc, hr⟩ := init_ok_state yamlMarshal yamlUnmarshal libName order m config hinit
  refine ⟨?_, ⟨c, { collectors := [c] }, { collectors := [] }, hc, hr, ?_, ?_, ?_⟩, ?_, ?_⟩ <;>
    simp [MysqldExporter.Close, hc, hr, Registry.Unregister]

/-- C7 on the example instance. -/
theorem close_idempotent_witness :
    readyExample.Close.1 = .ret none ∧
    readyExample.Close.2.Close.1 = .ret none ∧
    readyExample.Close.2.Close.2 = readyExample.Close.2 := by
  have h := close_idempotent (fun c : MysqldConfig => Except.ok c) Except.ok exampleNames
    scrapers MysqldExporter.zero exampleConfig rfl
  exact ⟨h.1, h.2.2.1, h.2.2.2⟩

/-- C8 fails on the code: `Close` on the fresh instance, whose registry and collector are
unset, ends in a nil dereference and returns nothing. -/
theorem close_created_counterexample :
    MysqldExporter.zero.registry = none ∧ MysqldExporter.zero.collector = none ∧
    MysqldExporter.zero.Close.1 = .panic plugins.nilDereference ∧
    MysqldExporter.zero.Close.1 ≠ .ret none := by
  refine ⟨rfl, rfl, rfl, ?_⟩
  intro h
  cases h

/-- C8 as the code has it. `Close` is valid once `Init` has set the registry and the collector
of the instance: it then returns a nil error and does not abort; on an instance on which one of
the two is unset, the fresh instance included, `Close` ends in a nil dereference and leaves the
instance as it was. -/
theorem close_needs_init (m : MysqldExporter) :
    (∀ r c, m.registry = some r → m.collector = some c → m.Close.1 = .ret none) ∧
    (m.registry = none ∨ m.collector = none →
      m.Close = (.panic plugins.nilDereference, m)) := by
  constructor
  · intro r c hr hc
    simp [MysqldExporter.Close, hr, hc]
  · intro h
    unfold MysqldExporter.Close
    rcases h with h | h
    · simp [h]
    · rw [h]
      cases m.registry <;> rfl

/-- C8 as the code has it, on the example instance (after `Init`) and on the fresh instance. -/
theorem close_needs_init_witness :
    readyExample.Close.1 = .ret none ∧
    MysqldExporter.zero.Close = (.panic plugins.nilDereference, MysqldExporter.zero) :=
  ⟨(close_needs_init readyExample).1 _ _ rfl rfl,
    (close_needs_init MysqldExporter.zero).2 (Or.inl rfl)⟩

end mysql

namespace response

/-- C9. `BuildResponse(data, err)`: with a nil error and a slice as data, the response is
successful, has no error payload and carries `IterableData` with that slice as `Contents`; with
a nil error and data that is not a slice, the data is carried as it is; with a non-nil error
that is not an `AgentError`, the response is not successful, carries no data, and its error
payload has the code of `ErrUnexpected` and the message of that error. -/
theorem buildResponse_cases {α : Type} (now : Nat) (ErrUnexpected : ErrorCode) :
    (∀ elems : List α,
      BuildResponse now ErrUnexpected (.slice elems) .nil
        = { Successful := true, Timestamp := now, Duration := 0, Status := 200, TraceId := "",
            Server := "", Data := .IterableData (.slice elems), Error := none }) ∧
    (∀ data : Any α, data.isSlice = false →
      BuildResponse now ErrUnexpected data .nil
        = { Successful := true, Timestamp := now, Duration := 0, Status := 200, TraceId := "",
            Server := "", Data := data, Error := none }) ∧
    (∀ (data : Any α) (message : String),
      BuildResponse now ErrUnexpected data (.other message)
        = { Successful := false, Timestamp := now, Duration := 0, Status := ErrUnexpected.Kind,
            TraceId := "", Server := "", Data := .nil,
            Error := some { Code := ErrUnexpected.Code, Message := message, SubErrors := [] } }) := by
  refine ⟨?_, ?_, ?_⟩
  · intro elems
    rfl
  · intro data h
    simp [BuildResponse, GoError.isNil, NewSuccessResponse, h]
  · intro data message
    rfl

/-- C9 on a list of two metrics, on a scalar, and on the error "boom" with the unexpected-error
code 1000 reported under status 500. -/
theorem buildResponse_cases_witness :
    (BuildResponse 5 ⟨1000, 500⟩ (.slice ["m1", "m2"]) .nil).Data
      = .IterableData (.slice ["m1", "m2"]) ∧
    (BuildResponse 5 ⟨1000, 500⟩ (.scalar "pong") .nil).Data = .scalar "pong" ∧
    (BuildResponse 5 ⟨1000, 500⟩ (.scalar "pong") (.other "boom")).Error
      = some { Code := 1000, Message := "boom", SubErrors := [] } := by
  have h := @buildResponse_cases String 5 ⟨1000, 500⟩
  exact ⟨by rw [h.1], by rw [h.2.1 (.scalar "pong") rfl], by rw [h.2.2]⟩

end response
